import Mathlib

/-!
Shallow embedding of the schema-extraction and fingerprint engine of the
imagetrend-mapping-extension repository.

Sources embedded here:
  * src/background/api-client.ts — the injected extractor
    (extractFields, traverseControls, extractResourceGroups, extractRules,
    normalizeExpression, extractRepeaters, extractFormActions,
    analyzeOperators, extractFormMapping);
  * src/services/hash-generator.ts — FormHashGenerator.generateHash and
    FormHashGenerator.generateQuickHash.

Modelling conventions (JavaScript to Lean):
  * a possibly-undefined value is an `Option`; `none` stands for
    `undefined` (and, where the code treats them alike, `null`);
  * JS truthiness of a string value is `jsTruthyS`; `a || b` on strings is
    `jsOrS`; `n || 0` on numbers is `jsIntOr`;
  * JS objects used as keyed maps are association lists in insertion
    order; updating an existing key keeps its position, as in JS
    (integer-like keys, which JS would iterate first, do not occur in the
    shapes this engine reads);
  * throwing code is given `Except Unit` result types; a `.error ()`
    result marks a thrown TypeError;
  * the Web Crypto digest call is a `HashEngine` parameter so the code's
    try/catch behaviour can be stated for both a succeeding and a failing
    digest engine; `sha256Engine` is the real (always-succeeding) SHA-256;
  * reactive-cell unwrap (`ko.unwrap`) is the identity on the value model;
  * cyclic layout heaps, which Lean inductives cannot express, are
    modelled separately as an id-indexed `Graph` with the same traversal
    code; fuelled traversals return `none` exactly when the JS recursion
    would not have returned within the given nesting budget.
-/

/-! ### JavaScript value helpers -/

/-- Truthiness of a JS string-or-undefined value: `undefined`, `null` and
the empty string are falsy. -/
def jsTruthyS : Option String → Bool
  | none => false
  | some s => s ≠ ""

/-- JS `a || b` on string-or-undefined values: returns `b` whenever `a`
is falsy (including when `a` is the empty string). -/
def jsOrS (a b : Option String) : Option String :=
  if jsTruthyS a then a else b

/-- JS `a || b || dflt` collapsed to a plain string result (the default
is a non-empty literal in every use site, hence truthy). -/
def jsStrOr (a : Option String) (dflt : String) : String :=
  if jsTruthyS a then a.getD "" else dflt

/-- JS `n || d` on a number-or-undefined value: `undefined` and `0` are
falsy. -/
def jsIntOr (o : Option Int) (d : Int) : Int :=
  match o with
  | some n => if n = 0 then d else n
  | none => d

/-- JS template-literal rendering of a string-or-undefined value:
`undefined` interpolates as the text "undefined". -/
def strOfOptJS : Option String → String
  | some s => s
  | none => "undefined"

/-- Byte-wise lexicographic comparison of char lists by code point,
modelling the fixed total order the JS string comparators induce. -/
def charLeb : List Char → List Char → Bool
  | [], _ => true
  | _ :: _, [] => false
  | a :: as, b :: bs =>
    if a.toNat < b.toNat then true
    else if b.toNat < a.toNat then false
    else charLeb as bs

/-- String comparison used to model `localeCompare`-based and default
array sorting (a fixed, total, transitive, antisymmetric order; the
claims under study depend only on those properties and on tie behaviour,
and ties are exact string equality in every order considered). -/
def strLeb (a b : String) : Bool := charLeb a.data b.data

/-- Substring matching at the head of a char list. -/
def leadMatch : List Char → List Char → Bool
  | [], _ => true
  | _ :: _, [] => false
  | n :: ns, h :: hs => n == h && leadMatch ns hs

/-- Substring search over char lists, modelling `String.prototype.includes`. -/
def listContainsSub : List Char → List Char → Bool
  | [], needle => needle.isEmpty
  | h :: hs, needle => leadMatch needle (h :: hs) || listContainsSub hs needle

/-- JS `hay.includes(needle)`. -/
def strContains (hay needle : String) : Bool := listContainsSub hay.data needle.data

/-- Character lower-casing as in `String.prototype.toLowerCase` for the
alphabets that occur in control-type names. -/
def lowerStr (s : String) : String := ⟨s.data.map Char.toLower⟩

/-- First-match association-list lookup, modelling JS property access on
an object literal (JS objects cannot carry duplicate keys, so the list
models carry at most one entry per key). -/
def assocFind {β : Type} : List (String × β) → String → Option β
  | [], _ => none
  | (k, v) :: rest, key => if k = key then some v else assocFind rest key

/-- Concatenation of a list of lists, modelling `Array.prototype.flat()`. -/
def flatAll {α : Type} : List (List α) → List α
  | [] => []
  | l :: ls => l ++ flatAll ls

/-- Joining with a separator, modelling `Array.prototype.join` /
the comma-separation of `JSON.stringify`. -/
def joinWith (sep : String) : List String → String
  | [] => ""
  | [x] => x
  | x :: y :: xs => x ++ sep ++ joinWith sep (y :: xs)

/-! ### Extraction data model (shapes read and produced by api-client.ts) -/

/-- A `possibleValues` / resource-group element as produced by the
extractor (`id`, `value`, `text`, `order`). -/
structure PV where
  id : Option String
  value : Option String
  text : Option String
  order : Int
deriving DecidableEq, Repr

/-- A raw element of the resource table (`Elements` entries), with every
property the extractor reads. -/
structure RElem where
  Id : Option String
  ID : Option String
  Value : Option String
  OriginalDisplayMember : Option String
  SortOrder : Option Int
  Order : Option Int
  ResourceGroupID : Option String
deriving DecidableEq, Repr

/-- A nested resource-table container value (second level): the extractor
only ever reads its `Elements` property. -/
structure RTNested where
  Elements : Option (List RElem)
deriving DecidableEq, Repr

/-- A top-level resource-table entry: either a direct group (carrying
`Elements`) or an intermediate container whose own keys (`children` here)
hold nested groups. A JS object can carry both; the extractor checks
`Elements` first. -/
structure RTEntry where
  Elements : Option (List RElem)
  children : List (String × RTNested)
deriving DecidableEq, Repr

/-- The resource table: top-level keys in iteration order. -/
def ResourceTable : Type := List (String × RTEntry)

instance : DecidableEq ResourceTable := by
  unfold ResourceTable
  infer_instance

/-- One entry of `formFieldDictionary` with every property the extractor
reads (JS numeric ids are modelled as strings; only identity matters). -/
structure DictField where
  bpID : Option String
  bindingPathEntryId : Option String
  key : Option String
  type : Option String
  controlType : Option String
  formID : Option String
  panelID : Option String
  sectionID : Option String
  locationName : Option String
  formManagerNoDataNodeID : Option String
  presetValueDefinitionID : Option String
deriving DecidableEq, Repr

/-- The non-recursive properties of a layout control that the extractor
reads. `Required` and `Label` appear already unwrapped (reactive-cell
unwrap is the identity on the value model). -/
structure CtrlData where
  BindingPathEntryID : Option String
  BindingPath : Option String
  ControlType : Option String
  Required : Option Bool
  ResourceGroupID : Option String
  MinLength : Option Int
  MaxLength : Option Int
  MinValue : Option Int
  MaxValue : Option Int
  Pattern : Option String
  Mask : Option String
  DefaultValue : Option String
  IsRequired : Bool
  IsRepeating : Bool
  IsCollection : Bool
  MaxCardinality : Option Int
  FormManagerNoDataNodeID : Option String
  DisplayOrder : Option Int
  ColumnSpan : Option Int
  Name : Option String
  Label : Option String
  ID : Option String
deriving DecidableEq, Repr

mutual
/-- A layout control: its scalar data plus its child `Controls`. An
absent `Controls` property and an empty `Controls` array lead to the same
traversal result (the recursive call guards on the array and iterates
nothing), so both are `ControlList.nil` here. -/
inductive Control where
  | mk (data : CtrlData) (children : ControlList)
deriving DecidableEq
/-- A `Controls` array. -/
inductive ControlList where
  | nil
  | cons (c : Control) (rest : ControlList)
deriving DecidableEq
end

/-- A layout panel. -/
structure Panel where
  Name : Option String
  Controls : Option ControlList
deriving DecidableEq

/-- A form inside a layout. -/
structure FormL where
  Name : Option String
  Panels : Option (List Panel)
  Controls : Option ControlList
deriving DecidableEq

/-- A layout object. -/
structure Layout where
  Forms : Option (List FormL)
  Panels : Option (List Panel)
deriving DecidableEq

/-- The layout collection: `extractFields` accepts an array of layouts or
a single layout object (the two take different code paths, and
`extractRepeaters` throws on the single-object form). -/
inductive LayoutColl where
  | arr (ls : List Layout)
  | single (l : Layout)
deriving DecidableEq

/-- FieldDesc constraints as assembled in `traverseControls`. -/
structure Constraints where
  minLength : Option Int
  maxLength : Option Int
  min : Option Int
  max : Option Int
  pattern : Option String
  mask : Option String
  defaultValue : Option String
  minOccurs : Int
  maxOccurs : Int
  nillable : Bool
deriving DecidableEq, Repr

/-- FieldDesc layout metadata as assembled in `traverseControls`. -/
structure Metadata where
  isRepeating : Bool
  isCollection : Bool
  displayOrder : Option Int
  columnSpan : Option Int
deriving DecidableEq, Repr

/-- A field descriptor. The JS code builds heterogeneous objects
(dictionary-seeded ones carry `key/label/resourceId/possibleValues`,
layout-created ones carry `path/constraints/metadata`); here every
property is optional and absent properties are `none`. Note that the
code uses two distinct properties for resource references: `resourceId`
(set by the dictionary phase) and `resourceGroupId` (set from a layout
control's `ResourceGroupID`). -/
structure FieldDesc where
  id : Option String
  key : Option String := none
  label : Option String := none
  type : Option String := none
  formId : Option String := none
  panelId : Option String := none
  sectionId : Option String := none
  location : Option String := none
  formManagerNodeId : Option String := none
  presetValueDefinitionId : Option String := none
  resourceId : Option String := none
  possibleValues : Option (List PV) := none
  bindingPath : Option String := none
  path : Option String := none
  controlType : Option String := none
  required : Option Bool := none
  resourceGroupId : Option String := none
  constraints : Option Constraints := none
  metadata : Option Metadata := none
deriving DecidableEq, Repr

/-- A resource group as produced by `extractResourceGroups`. -/
structure RGroup where
  id : String
  name : String
  elements : List PV
deriving DecidableEq, Repr

/-- The field map (`fieldMap` in `extractFields`): a JS object keyed by
the field id, in insertion order. The key is the possibly-undefined
field id (JS would coerce `undefined` to the string key "undefined";
all undefined-id entries collide on one key either way). -/
def FieldMap : Type := List (Option String × FieldDesc)

/-- JS `fieldMap[k] = v`: overwrite in place if the key exists (keeping
its position), else append. -/
def fmSet : FieldMap → Option String → FieldDesc → FieldMap
  | [], k, v => [(k, v)]
  | (k', v') :: rest, k, v =>
    if k' = k then (k', v) :: rest else (k', v') :: fmSet rest k v

/-- JS `fieldMap[k]` read. -/
def fmFind : FieldMap → Option String → Option FieldDesc
  | [], _ => none
  | (k', v') :: rest, k => if k' = k then some v' else fmFind rest k

/-- JS `Object.values(fieldMap)`. -/
def fmValues (fm : FieldMap) : List FieldDesc := fm.map Prod.snd

/-! ### EnumerationResolver and FieldReconciler (extractFields) -/

/-- Field identity: `field.bpID || field.bindingPathEntryId`. -/
def fieldIdOf (d : DictField) : Option String := jsOrS d.bpID d.bindingPathEntryId

/-- Element-to-possibleValue mapping used inside `extractFields`
(`id: elem.Id, value: elem.Value, text: elem.OriginalDisplayMember || elem.Value,
order: elem.SortOrder || 0`). -/
def pvOfElemField (e : RElem) : PV :=
  { id := e.Id, value := e.Value, text := jsOrS e.OriginalDisplayMember e.Value,
    order := jsIntOr e.SortOrder 0 }

/-- Element mapping used inside `extractResourceGroups`
(`id: elem.Id || elem.ID`, `order: elem.SortOrder || elem.Order || 0`). -/
def pvOfElemGroup (e : RElem) : PV :=
  { id := jsOrS e.Id e.ID, value := e.Value, text := jsOrS e.OriginalDisplayMember e.Value,
    order := jsIntOr e.SortOrder (jsIntOr e.Order 0) }

/-- Linear scan of the nested containers for the first one that carries
the requested key (`for (const topKey in resources) rT resources[topKey][resourceId] ...`,
with `break` after the first hit). -/
def rtScanNested : List (String × RTEntry) → String → Option RTNested
  | [], _ => none
  | (_, e) :: rest, rid =>
    match assocFind e.children rid with
    | some n => some n
    | none => rtScanNested rest rid

/-- The `SingleSelect`/`MultiSelect` enumeration-resolution branch of the
dictionary phase of `extractFields`: returns the `resourceId` and
`possibleValues` updates it applies (no update leaves `(none, [])`, the
values seeded before the branch runs). The direct top-level match is
checked first, then the nested containers are scanned. -/
def dictEnum (d : DictField) (resources : Option ResourceTable) : Option String × List PV :=
  if d.type == some "SingleSelect" || d.type == some "MultiSelect" then
    match fieldIdOf d, resources with
    | some rid, some rt =>
      if rid = "" then (none, [])
      else
        match assocFind rt rid with
        | some entry =>
          (some rid, match entry.Elements with
                     | some es => es.map pvOfElemField
                     | none => [])
        | none =>
          match rtScanNested rt rid with
          | some nst =>
            (some rid, match nst.Elements with
                       | some es => es.map pvOfElemField
                       | none => [])
          | none => (none, [])
    | _, _ => (none, [])
  else (none, [])

/-- The descriptor seeded for one dictionary entry (phase 1 of
`extractFields`), including the enumeration-resolution updates. -/
def dictSeed (d : DictField) (resources : Option ResourceTable) : FieldDesc :=
  let e := dictEnum d resources
  { id := fieldIdOf d, key := d.key, label := d.key, type := jsOrS d.type d.controlType,
    formId := d.formID, panelId := d.panelID, sectionId := d.sectionID,
    location := d.locationName, formManagerNodeId := d.formManagerNoDataNodeID,
    presetValueDefinitionId := d.presetValueDefinitionID,
    resourceId := e.1, possibleValues := some e.2, bindingPath := none }

/-- Phase 1 of `extractFields`: seed one descriptor per dictionary entry. -/
def dictPhase (resources : Option ResourceTable) (dict : List DictField) : FieldMap :=
  dict.foldl (fun fm d => fmSet fm (fieldIdOf d) (dictSeed d resources)) []

/-- Signal 1 of the multi-valued classification: the control-type name
contains a grid marker (`control.ControlType && control.ControlType.toLowerCase().includes('grid')`). -/
def gridSignal (c : CtrlData) : Bool :=
  match c.ControlType with
  | some s => decide (s ≠ "") && strContains (lowerStr s) "grid"
  | none => false

/-- Signal 2: an explicit multi-select control type. -/
def multiSelectSignal (c : CtrlData) : Bool := c.ControlType == some "MultiSelect"

/-- Signal 3: array notation in the binding path
(`control.BindingPath && control.BindingPath.includes('[]')`). -/
def arrayNotationSignal (c : CtrlData) : Bool :=
  match c.BindingPath with
  | some p => decide (p ≠ "") && strContains p "[]"
  | none => false

/-- Signal 4: an explicit repeating/collection flag
(`control.IsRepeating || control.IsCollection`). -/
def repeatFlagSignal (c : CtrlData) : Bool := c.IsRepeating || c.IsCollection

/-- Signal 5: a declared cardinality bound greater than one
(`control.MaxCardinality && control.MaxCardinality > 1`). -/
def cardinalitySignal (c : CtrlData) : Bool :=
  match c.MaxCardinality with
  | some n => decide (n ≠ 0) && decide (n > 1)
  | none => false

/-- The `isCollectionField` disjunction of `traverseControls` (it appears
verbatim in both the update and the create branch of the source). -/
def isCollectionField (c : CtrlData) : Bool :=
  gridSignal c || multiSelectSignal c || arrayNotationSignal c ||
    repeatFlagSignal c || cardinalitySignal c

/-- The constraints object assembled by `traverseControls`. -/
def buildConstraints (c : CtrlData) : Constraints :=
  { minLength := c.MinLength, maxLength := c.MaxLength,
    min := c.MinValue, max := c.MaxValue,
    pattern := c.Pattern, mask := c.Mask, defaultValue := c.DefaultValue,
    minOccurs := if c.IsRequired then 1 else 0,
    maxOccurs := if isCollectionField c then -1 else 1,
    nillable := jsTruthyS c.FormManagerNoDataNodeID }

/-- The metadata object assembled by `traverseControls`. -/
def buildMetadata (c : CtrlData) : Metadata :=
  { isRepeating := c.IsRepeating, isCollection := c.IsCollection,
    displayOrder := c.DisplayOrder, columnSpan := c.ColumnSpan }

/-- The `control.BindingPathEntryID` branch body of `traverseControls`:
update the existing descriptor with layout-sourced attributes (leaving
the dictionary-sourced `label`, `key`, `resourceId` and `possibleValues`
untouched), or create a fresh layout-only descriptor. -/
def updateFieldMap (fm : FieldMap) (c : CtrlData) (path : String) : FieldMap :=
  let fieldId := c.BindingPathEntryID
  match fmFind fm fieldId with
  | some f =>
    fmSet fm fieldId
      { f with bindingPath := c.BindingPath, controlType := c.ControlType,
               required := c.Required, resourceGroupId := c.ResourceGroupID,
               constraints := some (buildConstraints c),
               metadata := some (buildMetadata c) }
  | none =>
    fmSet fm fieldId
      { id := fieldId, bindingPath := c.BindingPath,
        path := some (path ++ "/" ++ jsStrOr (jsOrS c.Name c.Label) "field"),
        type := c.ControlType, label := c.Label, required := c.Required,
        resourceGroupId := c.ResourceGroupID,
        constraints := some (buildConstraints c),
        metadata := some (buildMetadata c) }

/-- The `controls.forEach` loop of `traverseControls`. The recursive call
into `control.Controls` happens at `depth + 1`; the callee's entry guard
`depth > 10` is applied here at the call site, which is equivalent. -/
def traverseControlsList : ControlList → String → Nat → FieldMap → FieldMap
  | .nil, _, _, fm => fm
  | .cons (.mk cd children) rest, path, depth, fm =>
    let fm1 := if jsTruthyS cd.BindingPathEntryID then updateFieldMap fm cd path else fm
    let fm2 :=
      if depth + 1 > 10 then fm1
      else traverseControlsList children (path ++ "/" ++ jsStrOr cd.Name "group") (depth + 1) fm1
    traverseControlsList rest path depth fm2

/-- Function `traverseControls(controls, path, depth)`: returns unchanged when the
controls value is absent/not an array or the depth ceiling is passed. -/
def traverseControls (controls : Option ControlList) (path : String) (depth : Nat)
    (fm : FieldMap) : FieldMap :=
  match controls with
  | none => fm
  | some cl => if depth > 10 then fm else traverseControlsList cl path depth fm

/-- Panel iteration shared by the forms branch and the direct-panels
branch of `traverseForms` (`prefixPath` is `"Form[i]/"` or `""`). -/
def foldPanels : List Panel → String → FieldMap → FieldMap
  | [], _, fm => fm
  | p :: rest, prefixPath, fm =>
    foldPanels rest prefixPath
      (traverseControls p.Controls (prefixPath ++ "Panel[" ++ strOfOptJS p.Name ++ "]") 0 fm)

/-- The `layout.Forms.forEach` loop of `traverseForms`, carrying the form
index used in traversal paths. -/
def foldForms : List FormL → Nat → FieldMap → FieldMap
  | [], _, fm => fm
  | f :: rest, i, fm =>
    let fmA :=
      match f.Panels with
      | some ps => foldPanels ps ("Form[" ++ toString i ++ "]/") fm
      | none => fm
    let fmB := traverseControls f.Controls ("Form[" ++ toString i ++ "]") 0 fmA
    foldForms rest (i + 1) fmB

/-- Function `traverseForms(layout)`: the `Forms` array (panels then direct
controls per form), then any direct `Panels`. -/
def traverseForms (layout : Layout) (fm : FieldMap) : FieldMap :=
  let fm1 :=
    match layout.Forms with
    | some forms => foldForms forms 0 fm
    | none => fm
  match layout.Panels with
  | some ps => foldPanels ps "" fm1
  | none => fm1

/-- Function `extractFields(layouts, dictionary, resources)`: dictionary phase,
then the layout traversal (skipped entirely when `layouts` is absent),
then `Object.values(fieldMap)`. -/
def extractFields (layouts : Option LayoutColl) (dictionary : Option (List DictField))
    (resources : Option ResourceTable) : List FieldDesc :=
  let fm1 :=
    match dictionary with
    | some dict => dictPhase resources dict
    | none => []
  match layouts with
  | none => fmValues fm1
  | some (.arr ls) => fmValues (ls.foldl (fun fm l => traverseForms l fm) fm1)
  | some (.single l) => fmValues (traverseForms l fm1)

/-- Group-name choice of `extractResourceGroups`
(`topLevel.Elements[0]?.ResourceGroupID || topKey`). -/
def groupName (es : List RElem) (k : String) : String :=
  match es with
  | e :: _ => jsStrOr e.ResourceGroupID k
  | [] => k

/-- Function `extractResourceGroups(resources)`: top-level entries carrying
`Elements` become direct groups keyed by the top-level key; other entries
are containers whose `Elements`-carrying children become groups keyed by
the nested key. -/
def extractResourceGroups (resources : Option ResourceTable) : List RGroup :=
  match resources with
  | none => []
  | some rt =>
    rt.foldl
      (fun groups kv =>
        match kv.2.Elements with
        | some es => groups ++ [⟨kv.1, groupName es kv.1, es.map pvOfElemGroup⟩]
        | none =>
          kv.2.children.foldl
            (fun acc nkv =>
              match nkv.2.Elements with
              | some nes => acc ++ [⟨nkv.1, groupName nes nkv.1, nes.map pvOfElemGroup⟩]
              | none => acc)
            groups)
      []

/-! ### RuleNormalizer (normalizeExpression, extractRules) -/

/-- A term inside a term group, with the properties the extractor reads. -/
structure Term where
  BindingPathEntryID : Option String
  PathFromParentList : Option String
  Value : Option String
deriving DecidableEq, Repr

/-- A term group (`LeftTermGroup` / `RightTermGroup`). -/
structure TermGroup where
  Terms : Option (List Term)
  CalculationOperatorID : Option Int
deriving DecidableEq, Repr

/-- A raw comparison (an entry of `Expressions`). -/
structure RawCmp where
  LeftTermGroup : Option TermGroup
  RightTermGroup : Option TermGroup
  ExpressionOperatorID : Option Int
deriving DecidableEq, Repr

mutual
/-- A raw expression group. `ChildExpressionGroups` may be absent
(`RawChildren.absent`), and a present child list may contain `null`
entries (`RawExprList.consNull`), both of which the normalizer and the
operator analyzer tolerate. -/
inductive RawExpr where
  | mk (BooleanOperatorID : Option Int) (Expressions : Option (List RawCmp))
       (ChildExpressionGroups : RawChildren)
/-- Presence marker of `ChildExpressionGroups`. -/
inductive RawChildren where
  | absent
  | present (l : RawExprList)
/-- A `ChildExpressionGroups` array whose entries may be `null`. -/
inductive RawExprList where
  | nil
  | consNull (rest : RawExprList)
  | consSome (e : RawExpr) (rest : RawExprList)
end

/-- The normalized left term (from the first left term only). -/
structure NormLeft where
  fieldId : Option String
  path : Option String
  value : Option String
deriving DecidableEq, Repr

/-- The normalized right term (all right-term values plus the optional
calculation operator). -/
structure NormRight where
  values : List (Option String)
  operator : Option Int
deriving DecidableEq, Repr

/-- A normalized comparison. -/
structure NormCmp where
  leftTerm : Option NormLeft
  rightTerm : Option NormRight
  operator : Option Int
deriving DecidableEq, Repr

mutual
/-- A normalized expression node as built by `normalizeExpression`:
`expressions` and `childGroups` mirror the presence of the raw lists
(`expr.Expressions?.map(...)` / `expr.ChildExpressionGroups?.map(...)`
yield `undefined` when the raw list is absent). -/
inductive NormExpr where
  | mk (booleanOperator : Option Int) (expressions : Option (List NormCmp))
       (childGroups : NormChildren)
/-- Presence marker of the normalized `childGroups`. -/
inductive NormChildren where
  | absent
  | present (l : NormList)
/-- A normalized child-group array; a `null` raw entry normalizes to a
`null` entry. -/
inductive NormList where
  | nil
  | consNull (rest : NormList)
  | consSome (e : NormExpr) (rest : NormList)
end

/-- Projection: the `booleanOperator` property. -/
def NormExpr.booleanOperator : NormExpr → Option Int
  | .mk b _ _ => b

/-- Projection: the `expressions` property. -/
def NormExpr.expressions : NormExpr → Option (List NormCmp)
  | .mk _ e _ => e

/-- Projection: the `childGroups` property. -/
def NormExpr.childGroups : NormExpr → NormChildren
  | .mk _ _ c => c

/-- Whether a normalized child-group property is absent. -/
def NormChildren.isAbsent : NormChildren → Bool
  | .absent => true
  | .present _ => false

/-- Normalization of one comparison: the left term is taken from the
first element of `LeftTermGroup.Terms` only (`Terms?.[0]`, falsy when the
list is absent or empty, yielding `null`); the right term aggregates all
`RightTermGroup.Terms` values plus the group's calculation operator. -/
def normalizeCmp (exp : RawCmp) : NormCmp :=
  { leftTerm :=
      match exp.LeftTermGroup with
      | some tg =>
        match tg.Terms with
        | some (t :: _) =>
          some { fieldId := t.BindingPathEntryID, path := t.PathFromParentList, value := t.Value }
        | _ => none
      | none => none,
    rightTerm :=
      match exp.RightTermGroup with
      | some tg =>
        match tg.Terms with
        | some ts => some { values := ts.map Term.Value, operator := tg.CalculationOperatorID }
        | none => none
      | none => none,
    operator := exp.ExpressionOperatorID }

mutual
/-- The body of `normalizeExpression` on a non-null expression group. -/
def normExprCore : RawExpr → NormExpr
  | .mk bop cmps children =>
    .mk bop (cmps.map (fun l => l.map normalizeCmp)) (normChildrenCore children)
/-- Mapping `expr.ChildExpressionGroups?.map(normalizeExpression)`: absent stays
absent; a present list is mapped elementwise. -/
def normChildrenCore : RawChildren → NormChildren
  | .absent => .absent
  | .present l => .present (normListCore l)
/-- Elementwise mapping of a child-group array; a `null` entry maps to
`normalizeExpression(null) = null`. -/
def normListCore : RawExprList → NormList
  | .nil => .nil
  | .consNull rest => .consNull (normListCore rest)
  | .consSome e rest => .consSome (normExprCore e) (normListCore rest)
end

/-- Function `normalizeExpression(expr)`: `null`/`undefined` input yields `null`
(`if (!expr) return null`). -/
def normalizeExpression : Option RawExpr → Option NormExpr
  | none => none
  | some e => some (normExprCore e)

/-- A legacy action record (`indexedValidationActions` /
`indexedVisibilityActions` entries), with the properties the extractor
reads. -/
structure LegacyRule where
  ActionType : Option String
  ActionID : Option String
  Name : Option String
  AffectedBindingPathEntryID : Option String
  ErrorMessage : Option String
  Points : Option Int
  ExpressionGroup : Option RawExpr
  FieldNodeID : Option String
  AffectedFormHierarchyId : Option String
  ComponentType : Option String

/-- A normalized legacy rule. Validation rules carry
`name/errorMessage/points`; visibility rules carry `componentType`;
properties a shape does not set are `none`. -/
structure LegacyOut where
  type : String
  id : Option String
  name : Option String := none
  targetField : Option String
  errorMessage : Option String := none
  points : Option Int := none
  componentType : Option String := none
  expression : Option NormExpr

/-- Function `extractRules(validations, visibilities)`: null entries and entries
with a non-matching `ActionType` are skipped; validations are processed
before visibilities. -/
def extractRules (validations visibilities : Option (List (Option LegacyRule))) :
    List LegacyOut :=
  let vrs :=
    match validations with
    | some l =>
      l.foldl
        (fun acc o =>
          match o with
          | some r =>
            if r.ActionType = some "Validation" then
              acc ++ [{ type := "validation", id := r.ActionID, name := r.Name,
                        targetField := r.AffectedBindingPathEntryID,
                        errorMessage := r.ErrorMessage, points := r.Points,
                        expression := normalizeExpression r.ExpressionGroup }]
            else acc
          | none => acc)
        []
    | none => []
  match visibilities with
  | some l =>
    l.foldl
      (fun acc o =>
        match o with
        | some r =>
          if r.ActionType = some "Visibility" then
            acc ++ [{ type := "visibility", id := r.ActionID,
                      targetField := jsOrS r.FieldNodeID r.AffectedFormHierarchyId,
                      componentType := r.ComponentType,
                      expression := normalizeExpression r.ExpressionGroup }]
          else acc
        | none => acc)
      vrs
  | none => vrs

/-! ### OperatorAnalyzer (analyzeOperators) -/

/-- A rich-mode form action. The source copies an open-ended property
set; the engine-relevant properties are the expression group and the
action type. -/
structure FAction where
  ExpressionGroup : Option RawExpr
  ActionType : Option String

/-- Type `FormActions`: a per-path map of action arrays; an array entry may be
`null` (which makes `analyzeOperators` throw). -/
def FormActions : Type := List (String × List (Option FAction))

/-- The three operator accumulation sets. JS `Set` keeps insertion
order; `setAdd` models `Set.prototype.add`. -/
structure OpSets where
  expression : List Int
  boolean : List Int
  calculation : List Int

/-- Operation `Set.prototype.add`: append if not yet present. -/
def setAdd (s : List Int) (n : Int) : List Int :=
  if s.contains n then s else s ++ [n]

/-- Add to the expression-operator set. -/
def addExprOp (s : OpSets) (n : Int) : OpSets := { s with expression := setAdd s.expression n }

/-- Add to the boolean-operator set. -/
def addBoolOp (s : OpSets) (n : Int) : OpSets := { s with boolean := setAdd s.boolean n }

/-- Add to the calculation-operator set. -/
def addCalcOp (s : OpSets) (n : Int) : OpSets := { s with calculation := setAdd s.calculation n }

/-- The expression-operator insertion of one comparison visit
(`exp.ExpressionOperatorID !== undefined && !== null`). -/
def exprOpStep (eo : Option Int) (s : OpSets) : OpSets :=
  match eo with
  | some n => addExprOp s n
  | none => s

/-- The calculation-operator insertion for one term group
(`exp.XTermGroup?.CalculationOperatorID !== undefined`; an explicit-null
calculation operator, which the upstream types do not produce, is
modelled as absent). -/
def calcOpStep (tg : Option TermGroup) (s : OpSets) : OpSets :=
  match tg with
  | some t =>
    match t.CalculationOperatorID with
    | some n => addCalcOp s n
    | none => s
  | none => s

/-- Per-comparison operator collection: the expression operator, then
the left term group's and the right term group's calculation
operators. -/
def analyzeCmpOps (s : OpSets) (exp : RawCmp) : OpSets :=
  calcOpStep exp.RightTermGroup
    (calcOpStep exp.LeftTermGroup
      (exprOpStep exp.ExpressionOperatorID s))

/-- The boolean-operator insertion of one group visit
(`expr.BooleanOperatorID !== undefined && !== null`). -/
def boolOpStep (bop : Option Int) (s : OpSets) : OpSets :=
  match bop with
  | some n => addBoolOp s n
  | none => s

/-- The `expr.Expressions` loop of one group visit (skipped when the
list is absent). -/
def cmpsStep (cmps : Option (List RawCmp)) (s : OpSets) : OpSets :=
  match cmps with
  | some l => l.foldl analyzeCmpOps s
  | none => s

mutual
/-- Function `analyzeExpression(expr)` on a non-null group: the boolean operator,
every comparison, then the child groups. -/
def analyzeExprOps : RawExpr → OpSets → OpSets
  | .mk bop cmps children, s =>
    analyzeChOps children (cmpsStep cmps (boolOpStep bop s))
/-- Child-group recursion (`expr.ChildExpressionGroups` present check). -/
def analyzeChOps : RawChildren → OpSets → OpSets
  | .absent, s => s
  | .present l, s => analyzeLOps l s
/-- Loop `forEach(analyzeExpression)` over a child array; a `null` entry
returns immediately (`if (!expr) return`). -/
def analyzeLOps : RawExprList → OpSets → OpSets
  | .nil, s => s
  | .consNull rest, s => analyzeLOps rest s
  | .consSome e rest, s => analyzeLOps rest (analyzeExprOps e s)
end

/-- The assembled operator analysis (three ascending-sorted arrays). -/
structure OperatorProfile where
  expression : List Int
  boolean : List Int
  calculation : List Int
deriving DecidableEq, Repr

/-- Assembly `Array.from(set).sort((a, b) => a - b)`: ascending numeric sort. -/
def sortInts (l : List Int) : List Int :=
  List.insertionSort (fun a b : Int => a ≤ b) l

/-- The `Object.values(formActions).flat().forEach` loop: a `null`
action throws a TypeError when its `ExpressionGroup` property is read
(`Except`-modelled as `none`); actions without an expression group are
skipped. -/
def foldActions : List (Option FAction) → OpSets → Option OpSets
  | [], s => some s
  | none :: _, _ => none
  | some a :: rest, s =>
    foldActions rest
      (match a.ExpressionGroup with
       | some g => analyzeExprOps g s
       | none => s)

/-- Function `analyzeOperators(formActions)`: `null` for an absent input;
otherwise the deduplicated, ascending-sorted operator profile. A thrown
TypeError (null action entry) is an `.error ()`, which the surrounding
single try/catch of `extractFormMapping` turns into a whole-extraction
failure. -/
def analyzeOperators (formActions : Option FormActions) :
    Except Unit (Option OperatorProfile) :=
  match formActions with
  | none => .ok none
  | some fa =>
    match foldActions (flatAll (fa.map Prod.snd)) ⟨[], [], []⟩ with
    | none => .error ()
    | some s => .ok (some ⟨sortInts s.expression, sortInts s.boolean, sortInts s.calculation⟩)

/-! ### extractFormActions -/

/-- Function `extractFormActions(formActions)`: `null` for an absent input; each
action is shallow-copied with reactive cells unwrapped, which is the
identity on this value model; `for (const key in action)` over a `null`
action iterates nothing and copies an empty record. -/
def extractFormActions (formActions : Option FormActions) : Option FormActions :=
  match formActions with
  | none => none
  | some fa =>
    some (fa.map (fun kv =>
      (kv.1, kv.2.map (fun oa =>
        match oa with
        | some a => some a
        | none => some ⟨none, none⟩))))

/-! ### Repeater discovery -/

/-- A repeater descriptor (`id`, accumulated path, immediate child
binding ids — non-recursive). -/
structure Repeater where
  id : Option String
  path : String
  childBindings : Option (List (Option String))
deriving DecidableEq, Repr

/-- Function `extractRepeaters(layouts)` on the typed layout collection of this
embedding: an absent collection short-circuits (`layouts?.forEach`) to
the empty array; a single (non-array) layout object has no `forEach`
method, so the call throws; an array of `Layout` records yields no
repeaters because the `Layout` shape carries none of `IsRepeating`,
`ControlType` or `Controls` (the full `findRepeaters` walk over
arbitrarily shaped — possibly cyclic — nodes is modelled on the graph
embedding below). -/
def extractRepeaters (layouts : Option LayoutColl) : Except Unit (List Repeater) :=
  match layouts with
  | none => .ok []
  | some (.single _) => .error ()
  | some (.arr _) => .ok []

/-! ### Graph embedding of the layout heap (for cyclic inputs)

A JS layout heap is a set of mutually referencing objects; an inductive
tree cannot express the self-referencing heaps the depth-guard claims
are about.  `Graph` indexes every heap node by position, and a node's
`Controls` array is a list of node indices.  `travControlsG` and
`findRepeatersG` run the same code as `traverseControls` and
`findRepeaters` over this representation; the `fuel` argument bounds the
nesting depth of recursive calls, and a `none` result means the JS
recursion would still be descending after `fuel` nested calls. -/

/-- A heap node: its control data and its `Controls` reference list
(`none` when the property is absent). -/
structure GNode where
  data : CtrlData
  childIds : Option (List Nat)

/-- A layout heap. -/
def Graph : Type := List GNode

/-- Node lookup by index. -/
def gnode : Graph → Nat → Option GNode
  | [], _ => none
  | n :: _, 0 => some n
  | _ :: rest, i + 1 => gnode rest i

/-- The per-control body of the forEach loop
(`if (control.BindingPathEntryID) { … }`), shared wording with the
`fm1` computation of `traverseControlsList`. -/
def stepNode (fm : FieldMap) (nd : GNode) (path : String) : FieldMap :=
  if jsTruthyS nd.data.BindingPathEntryID then updateFieldMap fm nd.data path else fm

/-- Function `traverseControls` over the heap: the forEach loop over a controls
array, with the callee entry guard `depth > 10` applied at the recursive
call site (`depth + 1 > 10`), exactly as in `traverseControlsList`.
A dangling index (impossible for a JS heap reference) is skipped. -/
def travControlsG (g : Graph) : Nat → List Nat → String → Nat → FieldMap → Option FieldMap
  | _, [], _, _, fm => some fm
  | fuel, i :: rest, path, depth, fm =>
    match gnode g i with
    | none => travControlsG g fuel rest path depth fm
    | some nd =>
      match nd.childIds with
      | none => travControlsG g fuel rest path depth (stepNode fm nd path)
      | some cids =>
        if depth + 1 > 10 then travControlsG g fuel rest path depth (stepNode fm nd path)
        else
          match fuel with
          | 0 => none
          | f + 1 =>
            match travControlsG g f cids (path ++ "/" ++ jsStrOr nd.data.Name "group")
                (depth + 1) (stepNode fm nd path) with
            | none => none
            | some fm2 => travControlsG g (f + 1) rest path depth fm2
termination_by fuel ids => (fuel, ids.length)

/-- Entry point of the heap-model `traverseControls`. -/
def travControlsEntry (g : Graph) (fuel : Nat) (controls : Option (List Nat)) (path : String)
    (depth : Nat) (fm : FieldMap) : Option FieldMap :=
  match controls with
  | none => some fm
  | some ids => if depth > 10 then some fm else travControlsG g fuel ids path depth fm

/-- The repeater descriptor pushed by `findRepeaters`
(`{id: node.ID, path: path + '/' + node.Name, childBindings: node.Controls?.map(c => c.BindingPathEntryID)}`). -/
def mkRepeater (g : Graph) (nd : GNode) (path : String) : Repeater :=
  { id := nd.data.ID,
    path := path ++ "/" ++ strOfOptJS nd.data.Name,
    childBindings :=
      match nd.childIds with
      | some ids => some (ids.map (fun i =>
          match gnode g i with
          | some c => c.data.BindingPathEntryID
          | none => none))
      | none => none }

mutual
/-- Function `findRepeaters(node, path)` over the heap. The source has no depth
guard here: every recursive call into a child consumes one unit of
nesting `fuel`, and exhausted fuel (`none`) marks a recursion that never
returns. -/
def findRepeatersG (g : Graph) : Nat → Nat → String → List Repeater → Option (List Repeater)
  | 0, _, _, _ => none
  | fuel + 1, nid, path, acc =>
    match gnode g nid with
    | none => some acc
    | some nd =>
      let acc1 :=
        if nd.data.IsRepeating || (nd.data.ControlType == some "Repeater") then
          acc ++ [mkRepeater g nd path]
        else acc
      match nd.childIds with
      | none => some acc1
      | some cids =>
        findRepeatersChildren g fuel cids (path ++ "/" ++ strOfOptJS nd.data.Name) acc1
termination_by fuel _ _ _ => (fuel, 0)
/-- The `forEach` over a repeater node's children. -/
def findRepeatersChildren (g : Graph) : Nat → List Nat → String → List Repeater →
    Option (List Repeater)
  | _, [], _, acc => some acc
  | fuel, c :: rest, path, acc =>
    match findRepeatersG g fuel c path acc with
    | none => none
    | some acc1 => findRepeatersChildren g fuel rest path acc1
termination_by fuel l _ _ => (fuel, l.length + 1)
end

/-! ### ExtractionOrchestrator (extractFormMapping) -/

/-- The `formComposer` root object: the four root containers plus the
collection id. -/
structure FormComposer where
  formHierarchyCollectionId : Option String
  reportingStandardId : Option String
  agencyLayouts : Option LayoutColl
  formFieldDictionary : Option (List DictField)
  agencyResources : Option ResourceTable

/-- The `logicEngine` root object (legacy rules). -/
structure LogicEngine where
  indexedValidationActions : Option (List (Option LegacyRule))
  indexedVisibilityActions : Option (List (Option LegacyRule))

/-- Inputs reaching one `extractFormMapping` run: the resolved
`formComposer` (possibly absent), the view-model resources and form
actions, and the logic engine. -/
structure ExtractInputs where
  formComposer : Option FormComposer
  vmResources : Option ResourceTable
  vmFormActions : Option FormActions
  logicEngine : Option LogicEngine

/-- The assembled extraction result (environment-only members such as
timestamps, url, debug echoes and the derived `stats` tallies are
omitted; `updateFunctions` is a constant empty object). -/
structure FormDataR where
  formHierarchyCollectionId : Option String
  fields : List FieldDesc
  resourceGroups : List RGroup
  formActions : Option FormActions
  operators : Option OperatorProfile
  rules : List LegacyOut
  repeaters : List Repeater

/-- Function `extractFormMapping()`: the entire extraction — every stage and the
assembly of the result object — runs inside one `try`; any stage that
throws reaches the single `catch`, which posts an error message instead
of a result, so no partial output survives. An absent `formComposer`
throws at the very first property read
(`formComposer.formHierarchyCollectionId`). Stage order follows the
object-literal evaluation order of the source: fields, resourceGroups,
formActions, operators, rules, repeaters. -/
def extractFormMapping (inp : ExtractInputs) : Except Unit FormDataR :=
  match inp.formComposer with
  | none => .error ()
  | some fc =>
    let resources :=
      match inp.vmResources with
      | some r => some r
      | none => fc.agencyResources
    let fields := extractFields fc.agencyLayouts fc.formFieldDictionary resources
    let resourceGroups := extractResourceGroups resources
    let formActions := extractFormActions inp.vmFormActions
    match analyzeOperators inp.vmFormActions with
    | .error e => .error e
    | .ok operators =>
      let rules :=
        extractRules
          (match inp.logicEngine with
           | some le => le.indexedValidationActions
           | none => none)
          (match inp.logicEngine with
           | some le => le.indexedVisibilityActions
           | none => none)
      match extractRepeaters fc.agencyLayouts with
      | .error e => .error e
      | .ok repeaters =>
        .ok ⟨fc.formHierarchyCollectionId, fields, resourceGroups, formActions,
             operators, rules, repeaters⟩

/-! ### FingerprintGenerator (hash-generator.ts)

SHA-256 implemented over byte lists (Nat < 256), with 32-bit words as
Nat reduced mod 2^32. -/

/-- Reduction to a 32-bit word. -/
def m32 (n : Nat) : Nat := n % 4294967296

/-- Rotation right by `n` within 32 bits. -/
def rotr32 (n x : Nat) : Nat := m32 ((x >>> n) ||| (x <<< (32 - n)))

/-- SHA-256 Sigma-0. -/
def bigS0 (x : Nat) : Nat := rotr32 2 x ^^^ rotr32 13 x ^^^ rotr32 22 x

/-- SHA-256 Sigma-1. -/
def bigS1 (x : Nat) : Nat := rotr32 6 x ^^^ rotr32 11 x ^^^ rotr32 25 x

/-- SHA-256 sigma-0. -/
def smallS0 (x : Nat) : Nat := rotr32 7 x ^^^ rotr32 18 x ^^^ (x >>> 3)

/-- SHA-256 sigma-1. -/
def smallS1 (x : Nat) : Nat := rotr32 17 x ^^^ rotr32 19 x ^^^ (x >>> 10)

/-- SHA-256 choose function. -/
def chF (x y z : Nat) : Nat := (x &&& y) ^^^ ((x ^^^ 4294967295) &&& z)

/-- SHA-256 majority function. -/
def majF (x y z : Nat) : Nat := (x &&& y) ^^^ (x &&& z) ^^^ (y &&& z)

/-- The SHA-256 round constants. -/
def shaK : List Nat :=
  [1116352408, 1899447441, 3049323471, 3921009573,
   961987163, 1508970993, 2453635748, 2870763221,
   3624381080, 310598401, 607225278, 1426881987,
   1925078388, 2162078206, 2614888103, 3248222580,
   3835390401, 4022224774, 264347078, 604807628,
   770255983, 1249150122, 1555081692, 1996064986,
   2554220882, 2821834349, 2952996808, 3210313671,
   3336571891, 3584528711, 113926993, 338241895,
   666307205, 773529912, 1294757372, 1396182291,
   1695183700, 1986661051, 2177026350, 2456956037,
   2730485921, 2820302411, 3259730800, 3345764771,
   3516065817, 3600352804, 4094571909, 275423344,
   430227734, 506948616, 659060556, 883997877,
   958139571, 1322822218, 1537002063, 1747873779,
   1955562222, 2024104815, 2227730452, 2361852424,
   2428436474, 2756734187, 3204031479, 3329325298]

/-- The eight SHA-256 working variables. -/
structure Sha8 where
  a : Nat
  b : Nat
  c : Nat
  d : Nat
  e : Nat
  f : Nat
  g : Nat
  h : Nat

/-- The SHA-256 initial hash value. -/
def shaInit : Sha8 :=
  ⟨1779033703, 3144134277, 1013904242, 2773480762,
   1359893119, 2600822924, 528734635, 1541459225⟩

/-- One SHA-256 compression round. -/
def shaRound (st : Sha8) (kw : Nat × Nat) : Sha8 :=
  let t1 := m32 (st.h + bigS1 st.e + chF st.e st.f st.g + kw.1 + kw.2)
  let t2 := m32 (bigS0 st.a + majF st.a st.b st.c)
  ⟨m32 (t1 + t2), st.a, st.b, st.c, m32 (st.d + t1), st.e, st.f, st.g⟩

/-- Big-endian packing of bytes into 32-bit words. -/
def bytesToWords : List Nat → List Nat
  | b1 :: b2 :: b3 :: b4 :: rest =>
    ((b1 <<< 24) ||| (b2 <<< 16) ||| (b3 <<< 8) ||| b4) :: bytesToWords rest
  | _ => []

/-- One message-schedule extension step. -/
def schedStep (w : List Nat) : List Nat :=
  let n := w.length
  w ++ [m32 (smallS1 (w.getD (n - 2) 0) + w.getD (n - 7) 0 +
             smallS0 (w.getD (n - 15) 0) + w.getD (n - 16) 0)]

/-- Iterated message-schedule extension. -/
def schedExtend : Nat → List Nat → List Nat
  | 0, w => w
  | n + 1, w => schedExtend n (schedStep w)

/-- Structural take (kernel-reducible). -/
def takeB : Nat → List Nat → List Nat
  | 0, _ => []
  | _, [] => []
  | n + 1, x :: xs => x :: takeB n xs

/-- Structural drop (kernel-reducible). -/
def dropB : Nat → List Nat → List Nat
  | 0, l => l
  | _, [] => []
  | n + 1, _ :: xs => dropB n xs

/-- SHA-256 compression of one 64-byte block. -/
def shaCompress (st : Sha8) (block : List Nat) : Sha8 :=
  let w := schedExtend 48 (bytesToWords block)
  let st1 := (shaK.zip w).foldl shaRound st
  ⟨m32 (st.a + st1.a), m32 (st.b + st1.b), m32 (st.c + st1.c), m32 (st.d + st1.d),
   m32 (st.e + st1.e), m32 (st.f + st1.f), m32 (st.g + st1.g), m32 (st.h + st1.h)⟩

/-- Block iteration (the fuel is the block count of the padded message). -/
def shaBlocks : Nat → List Nat → Sha8 → Sha8
  | 0, _, st => st
  | n + 1, msg, st => shaBlocks n (dropB 64 msg) (shaCompress st (takeB 64 msg))

/-- Big-endian 64-bit encoding. -/
def be64 (n : Nat) : List Nat :=
  [(n >>> 56) &&& 255, (n >>> 48) &&& 255, (n >>> 40) &&& 255, (n >>> 32) &&& 255,
   (n >>> 24) &&& 255, (n >>> 16) &&& 255, (n >>> 8) &&& 255, n &&& 255]

/-- Big-endian 32-bit encoding. -/
def be32 (n : Nat) : List Nat :=
  [(n >>> 24) &&& 255, (n >>> 16) &&& 255, (n >>> 8) &&& 255, n &&& 255]

/-- SHA-256 message padding. -/
def shaPad (msg : List Nat) : List Nat :=
  let len := msg.length
  let padZeros := (64 + 55 - (len % 64)) % 64
  msg ++ [128] ++ List.replicate padZeros 0 ++ be64 (len * 8)

/-- SHA-256 of a byte list. -/
def sha256 (msg : List Nat) : List Nat :=
  let padded := shaPad msg
  let st := shaBlocks (padded.length / 64) padded shaInit
  be32 st.a ++ be32 st.b ++ be32 st.c ++ be32 st.d ++
    be32 st.e ++ be32 st.f ++ be32 st.g ++ be32 st.h

/-- Lowercase hex digit. -/
def hexDigit (n : Nat) : Char := "0123456789abcdef".data.getD n '0'

/-- Rendering of one byte as two lowercase hex characters
(`b.toString(16).padStart(2, '0')`). -/
def byteHex (b : Nat) : List Char := [hexDigit (b / 16), hexDigit (b % 16)]

/-- Hex rendering of a digest (`hashArray.map(...).join('')`). -/
def hexOfBytes (bs : List Nat) : String := ⟨bs.foldr (fun b acc => byteHex b ++ acc) []⟩

/-- UTF-8 encoding of one character (`TextEncoder`). -/
def utf8Char (c : Char) : List Nat :=
  let n := c.toNat
  if n < 128 then [n]
  else if n < 2048 then [192 ||| (n >>> 6), 128 ||| (n &&& 63)]
  else if n < 65536 then
    [224 ||| (n >>> 12), 128 ||| ((n >>> 6) &&& 63), 128 ||| (n &&& 63)]
  else
    [240 ||| (n >>> 18), 128 ||| ((n >>> 12) &&& 63), 128 ||| ((n >>> 6) &&& 63), 128 ||| (n &&& 63)]

/-- UTF-8 encoding of a string (`TextEncoder.encode`). -/
def utf8Bytes (s : String) : List Nat := s.data.foldr (fun c acc => utf8Char c ++ acc) []

/-- JSON string-character escaping as in `JSON.stringify`. -/
def jsonEscapeChar (c : Char) : List Char :=
  if c = '"' then ['\\', '"']
  else if c = '\\' then ['\\', '\\']
  else if c = '\n' then ['\\', 'n']
  else if c = '\r' then ['\\', 'r']
  else if c = '\t' then ['\\', 't']
  else if c.toNat = 8 then ['\\', 'b']
  else if c.toNat = 12 then ['\\', 'f']
  else if c.toNat < 32 then
    ['\\', 'u', '0', '0', hexDigit (c.toNat / 16), hexDigit (c.toNat % 16)]
  else [c]

/-- JSON rendering of a string value. -/
def jsonStr (s : String) : String :=
  ⟨'"' :: s.data.foldr (fun c acc => jsonEscapeChar c ++ acc) ['"']⟩

/-- The digest engine abstraction: the `crypto.subtle.digest('SHA-256', …)`
call, which at runtime can fail (rejected promise), caught by the
generators' try/catch. -/
def HashEngine : Type := List Nat → Except Unit (List Nat)

/-- The real digest engine: SHA-256, which always succeeds. -/
def sha256Engine : HashEngine := fun bytes => .ok (sha256 bytes)

/-- The argument shape of the hash generators: the assembled form data,
of which `generateHash` reads `fields` and `resourceGroups` and
`generateQuickHash` additionally reads `formHierarchyCollectionId`. -/
structure HashFormData where
  fields : Option (List FieldDesc)
  resourceGroups : Option (List RGroup)
  formHierarchyCollectionId : Option String

/-- The canonical field projection of `generateHash`
(`id: String(f.id || ''), bindingPath: f.bindingPath || null`). -/
structure HashFieldProj where
  id : String
  bindingPath : Option String
deriving DecidableEq, Repr

/-- The canonical resource-group projection of `generateHash`
(`id: String(g.id || ''), count: g.elements?.length || 0`). -/
structure HashGroupProj where
  id : String
  count : Nat
deriving DecidableEq, Repr

/-- Canonicalization of one field. `String(f.id || '')` renders an
absent id as the empty string; `f.bindingPath || null` nulls out an
empty binding path. -/
def canonField (f : FieldDesc) : HashFieldProj :=
  { id := f.id.getD "",
    bindingPath := if jsTruthyS f.bindingPath then f.bindingPath else none }

/-- Canonicalization of one resource group. -/
def canonGroup (g : RGroup) : HashGroupProj :=
  { id := g.id, count := g.elements.length }

/-- The canonical, sorted field list of `generateHash`. The comparator
`(a, b) => a.id.localeCompare(b.id)` is a fixed total order on the id;
JS `Array.prototype.sort` is stable, as is `List.insertionSort`, so ties
— equal ids — keep their input order in both. -/
def sortedHashFields (fd : HashFormData) : List HashFieldProj :=
  List.insertionSort (fun a b => strLeb (HashFieldProj.id a) (HashFieldProj.id b) = true)
    ((fd.fields.getD []).map canonField)

/-- The canonical, sorted resource-group list of `generateHash`. -/
def sortedHashGroups (fd : HashFormData) : List HashGroupProj :=
  List.insertionSort (fun a b => strLeb (HashGroupProj.id a) (HashGroupProj.id b) = true)
    ((fd.resourceGroups.getD []).map canonGroup)

/-- JSON rendering of one canonical field. -/
def jsonHashField (f : HashFieldProj) : String :=
  "\x7b\"id\":" ++ jsonStr f.id ++ ",\"bindingPath\":" ++
    (match f.bindingPath with
     | some p => jsonStr p
     | none => "null") ++ "\x7d"

/-- JSON rendering of one canonical resource group. -/
def jsonHashGroup (g : HashGroupProj) : String :=
  "\x7b\"id\":" ++ jsonStr g.id ++ ",\"count\":" ++ toString g.count ++ "\x7d"

/-- Serialization `JSON.stringify(structureHash)`: the canonical serialization the
primary digest is computed over. -/
def hashJson (fd : HashFormData) : String :=
  "\x7b\"fields\":[" ++ joinWith "," ((sortedHashFields fd).map jsonHashField) ++
    "],\"resourceGroups\":[" ++ joinWith "," ((sortedHashGroups fd).map jsonHashGroup) ++
    "]\x7d"

/-- Method `FormHashGenerator.generateHash`: canonicalize, serialize, digest,
render lowercase hex; a failed digest reaches the catch block, which
re-throws `Error('Failed to generate form hash')`. -/
def generateHash (engine : HashEngine) (fd : HashFormData) : Except String String :=
  match engine (utf8Bytes (hashJson fd)) with
  | .ok digest => .ok (hexOfBytes digest)
  | .error _ => .error "Failed to generate form hash"

/-- JSON rendering of `formData.fields?.map(f => f.id).sort()`: the
default sort (lexicographic) places `undefined` ids last, and
`JSON.stringify` renders them as `null`. -/
def quickIdsJson (ids : List (Option String)) : String :=
  let present := ids.filterMap (fun x => x)
  let sorted := List.insertionSort (fun a b => strLeb a b = true) present
  "[" ++ joinWith "," (sorted.map jsonStr ++
    List.replicate (ids.length - present.length) "null") ++ "]"

/-- Serialization `JSON.stringify(quickData)` of `generateQuickHash`: an undefined
`formId` property is omitted by `JSON.stringify`. -/
def quickJson (fd : HashFormData) : String :=
  "\x7b" ++
    (match fd.formHierarchyCollectionId with
     | some s => "\"formId\":" ++ jsonStr s ++ ","
     | none => "") ++
    "\"fieldCount\":" ++ toString ((fd.fields.getD []).length) ++
    ",\"fieldIds\":" ++
    (match fd.fields with
     | some fs => quickIdsJson (fs.map FieldDesc.id)
     | none => "[]") ++
    ",\"resourceGroupIds\":" ++
    (match fd.resourceGroups with
     | some gs =>
       "[" ++ joinWith ","
         ((List.insertionSort (fun a b => strLeb a b = true) (gs.map RGroup.id)).map jsonStr) ++ "]"
     | none => "[]") ++
    "\x7d"

/-- Method `FormHashGenerator.generateQuickHash`: same digest pipeline over the
quick projection, but the catch block returns the empty string instead
of throwing. -/
def generateQuickHash (engine : HashEngine) (fd : HashFormData) : Except String String :=
  match engine (utf8Bytes (quickJson fd)) with
  | .ok digest => .ok (hexOfBytes digest)
  | .error _ => .ok ""

/-! ### Derived predicates and concrete instances used by the claims -/

/-- A control/layout node with every property absent or false. -/
def blankCtrl : CtrlData :=
  { BindingPathEntryID := none, BindingPath := none, ControlType := none, Required := none,
    ResourceGroupID := none, MinLength := none, MaxLength := none, MinValue := none,
    MaxValue := none, Pattern := none, Mask := none, DefaultValue := none, IsRequired := false,
    IsRepeating := false, IsCollection := false, MaxCardinality := none,
    FormManagerNoDataNodeID := none, DisplayOrder := none, ColumnSpan := none, Name := none,
    Label := none, ID := none }

/-- A dictionary entry with every property absent. -/
def blankDict : DictField :=
  { bpID := none, bindingPathEntryId := none, key := none, type := none, controlType := none,
    formID := none, panelID := none, sectionID := none, locationName := none,
    formManagerNoDataNodeID := none, presetValueDefinitionID := none }

/-- All three operator sets are duplicate-free. -/
def InvOps (s : OpSets) : Prop :=
  s.expression.Nodup ∧ s.boolean.Nodup ∧ s.calculation.Nodup

/-- Every action entry of every path is non-null. -/
def faAllPresent (fa : FormActions) : Bool :=
  fa.all (fun kv => kv.2.all Option.isSome)

/-- No action of any path carries an expression group. -/
def faNoGroups (fa : FormActions) : Bool :=
  fa.all (fun kv => kv.2.all (fun oa =>
    match oa with
    | some a => a.ExpressionGroup.isNone
    | none => true))

/-- The repeater walk diverges from the given root: no nesting budget
suffices for `findRepeaters` to return. -/
def findRepeatersDiverges (g : Graph) (root : Nat) : Prop :=
  ∀ fuel, findRepeatersG g fuel root "" [] = none

/-- A one-node layout heap whose node lists itself as its own child — an
artificially self-referencing control tree. -/
def cycGraph : Graph := [⟨blankCtrl, some [0]⟩]

/-- Successful-digest projection of a hash-generator result. -/
def exceptOkStr : Except String String → Option String
  | .ok s => some s
  | .error _ => none

/-- C1 counterexample input: two resource groups sharing the id "X"
(as `extractResourceGroups` produces when two nested containers carry
the same key) with different element counts. -/
def c1xGroupA : RGroup := ⟨"X", "X", [⟨some "1", some "v", some "v", 0⟩]⟩

/-- The second duplicate-id group of the C1 counterexample. -/
def c1xGroupB : RGroup :=
  ⟨"X", "X", [⟨some "1", some "v", some "v", 0⟩, ⟨some "2", some "w", some "w", 1⟩]⟩

/-- C1 witness fields with distinct ids. -/
def c1wFieldA : FieldDesc := { id := some "a", bindingPath := some "/p/a" }

/-- The second C1 witness field. -/
def c1wFieldB : FieldDesc := { id := some "b" }

/-- C2 counterexample dictionary entry (gives the fields stage a
non-empty output). -/
def c2Dict : DictField := { blankDict with bpID := some "F9", key := some "Label9" }

/-- C2 counterexample inputs: a healthy dictionary (fields extract fine)
together with a form-actions map holding one null action entry, on which
the operator-analysis stage throws. -/
def c2Inp : ExtractInputs :=
  { formComposer := some
      { formHierarchyCollectionId := some "FHC", reportingStandardId := none,
        agencyLayouts := none, formFieldDictionary := some [c2Dict], agencyResources := none },
    vmResources := none,
    vmFormActions := some [("path1", [none])],
    logicEngine := none }

/-- C4 scenario dictionary entry. -/
def dC4 : DictField := { blankDict with bpID := some "F1", type := some "SingleSelect" }

/-- C4 scenario resource table. -/
def rtC4 : ResourceTable :=
  [("F1", ⟨some [⟨some "1", none, some "Y", none, some 0, none, none⟩,
                 ⟨some "2", none, some "N", none, some 1, none, none⟩], []⟩)]

/-- The descriptor the C4 scenario produces. -/
def fieldC4 : FieldDesc :=
  { id := some "F1", type := some "SingleSelect", resourceId := some "F1",
    possibleValues := some [⟨some "1", some "Y", some "Y", 0⟩, ⟨some "2", some "N", some "N", 1⟩] }

/-- A one-control layout collection (one layout, one panel, the given
control with no children), as used by the reconciliation claim. -/
def layC5 (cd : CtrlData) : LayoutColl :=
  .arr [⟨none, some [⟨none, some (.cons (.mk cd .nil) .nil)⟩]⟩]

/-- C5 witness dictionary entry (`label="A"`, `bindingPath` unset). -/
def d5w : DictField := { blankDict with bpID := some "F2", key := some "A" }

/-- C5 witness layout control (`bindingPath="/x/y"`, no label). -/
def cd5w : CtrlData :=
  { blankCtrl with BindingPathEntryID := some "F2", BindingPath := some "/x/y" }

/-- A DataGrid control with no other multi-valued signal. -/
def dataGridCd : CtrlData := { blankCtrl with BindingPathEntryID := some "G1", ControlType := some "DataGrid" }

/-- A TextBox control with no multi-valued signal. -/
def textBoxCd : CtrlData := { blankCtrl with BindingPathEntryID := some "T1", ControlType := some "TextBox" }

/-- C8 witness form actions: one path, one action, no expression group. -/
def fa8 : FormActions := [("p1", [some ⟨none, some "Validation"⟩])]

/-- C8 counterexample form actions: a present map whose single action
entry is null. -/
def fa8x : FormActions := [("q", [none])]

/-- Whether an operator-analysis result is a returned profile (as
opposed to a thrown TypeError or a null result). -/
def isOkSomeProfile : Except Unit (Option OperatorProfile) → Bool
  | .ok (some _) => true
  | _ => false

/-- C9 witness dictionary entry (id only via `bindingPathEntryId`). -/
def d9w : DictField := { blankDict with bindingPathEntryId := some "G7", type := some "MultiSelect" }

/-- C9 witness resource table: "G7" appears only inside the nested
container "1", not at top level. -/
def rt9w : ResourceTable :=
  [("1", ⟨none, [("G7", ⟨some [⟨some "5", none, some "Yes", some "Yes!", some 2, none, none⟩]⟩)]⟩)]

/-- The always-failing digest engine (a rejected `crypto.subtle.digest`
promise). -/
def failEngine : HashEngine := fun _ => .error ()

/-- An empty form-data value for the hash-generator witnesses. -/
def hfdEmpty : HashFormData := ⟨none, none, none⟩

/-! ### Order properties of the string comparison -/

/-- Totality of the lexicographic byte comparison. -/
theorem charLeb_total : ∀ a b, charLeb a b = true ∨ charLeb b a = true := by
  intro a
  induction a with
  | nil => intro b; left; rfl
  | cons x xs ih =>
    intro b
    cases b with
    | nil => right; rfl
    | cons y ys =>
      by_cases h1 : x.toNat < y.toNat
      · left; simp [charLeb, h1]
      · by_cases h2 : y.toNat < x.toNat
        · right; simp [charLeb, h1, h2]
        · rcases ih ys with h | h
          · left; simp [charLeb, h1, h2, h]
          · right; simp [charLeb, h1, h2, h]

/-- Transitivity of the lexicographic byte comparison. -/
theorem charLeb_trans : ∀ a b c, charLeb a b = true → charLeb b c = true → charLeb a c = true := by
  intro a
  induction a with
  | nil => intro b c _ _; rfl
  | cons x xs ih =>
    intro b c hab hbc
    cases b with
    | nil => simp [charLeb] at hab
    | cons y ys =>
      cases c with
      | nil => simp [charLeb] at hbc
      | cons z zs =>
        simp only [charLeb] at hab hbc ⊢
        split at hab
        · rename_i hxy
          split at hbc
          · rename_i hyz
            have : x.toNat < z.toNat := Nat.lt_trans hxy hyz
            simp [this]
          · split at hbc
            · exact absurd hbc (by simp)
            · rename_i h1 h2
              have hyz : y.toNat = z.toNat :=
                Nat.le_antisymm (Nat.le_of_not_lt h2) (Nat.le_of_not_lt h1)
              have : x.toNat < z.toNat := hyz ▸ hxy
              simp [this]
        · split at hab
          · exact absurd hab (by simp)
          · rename_i h1 h2
            have hxy : x.toNat = y.toNat :=
              Nat.le_antisymm (Nat.le_of_not_lt h2) (Nat.le_of_not_lt h1)
            split at hbc
            · rename_i hyz
              have : x.toNat < z.toNat := hxy ▸ hyz
              simp [this]
            · split at hbc
              · exact absurd hbc (by simp)
              · rename_i h3 h4
                have hyz : y.toNat = z.toNat :=
                  Nat.le_antisymm (Nat.le_of_not_lt h4) (Nat.le_of_not_lt h3)
                have hxz : x.toNat = z.toNat := hxy.trans hyz
                have hn1 : ¬ x.toNat < z.toNat := by omega
                have hn2 : ¬ z.toNat < x.toNat := by omega
                simp only [hn1, hn2, if_false, if_true]
                exact ih ys zs hab hbc

/-- Antisymmetry of the lexicographic byte comparison. -/
theorem charLeb_antisymm : ∀ a b, charLeb a b = true → charLeb b a = true → a = b := by
  intro a
  induction a with
  | nil =>
    intro b _ hba
    cases b with
    | nil => rfl
    | cons y ys => simp [charLeb] at hba
  | cons x xs ih =>
    intro b hab hba
    cases b with
    | nil => simp [charLeb] at hab
    | cons y ys =>
      simp only [charLeb] at hab hba
      split at hab
      · rename_i hxy
        have hyx : ¬ y.toNat < x.toNat := Nat.lt_asymm hxy
        simp [Nat.lt_irrefl, hyx, hxy] at hba
      · split at hab
        · exact absurd hab (by simp)
        · rename_i h1 h2
          have hxy : x.toNat = y.toNat :=
            Nat.le_antisymm (Nat.le_of_not_lt h2) (Nat.le_of_not_lt h1)
          have hchar : x = y := by
            have h := congrArg Char.ofNat hxy
            rwa [Char.ofNat_toNat, Char.ofNat_toNat] at h
          rw [if_neg (show ¬ y.toNat < x.toNat by omega),
              if_neg (show ¬ x.toNat < y.toNat by omega)] at hba
          have := ih ys hab hba
          rw [hchar, this]

/-- Totality of the string comparison. -/
theorem strLeb_total (a b : String) : strLeb a b = true ∨ strLeb b a = true :=
  charLeb_total a.data b.data

/-- Transitivity of the string comparison. -/
theorem strLeb_trans (a b c : String) :
    strLeb a b = true → strLeb b c = true → strLeb a c = true :=
  charLeb_trans a.data b.data c.data

/-- Antisymmetry of the string comparison. -/
theorem strLeb_antisymm (a b : String) :
    strLeb a b = true → strLeb b a = true → a = b := by
  intro h1 h2
  have h := charLeb_antisymm a.data b.data h1 h2
  cases a with
  | mk da =>
    cases b with
    | mk db => exact congrArg String.mk h

/-- Sorting two permuted lists by a duplicate-free string key yields the
same list: the key order is total, transitive and antisymmetric, and
distinct keys make the sorted order unique. -/
theorem insertionSort_key_eq {α : Type} (key : α → String) (l₁ l₂ : List α)
    (hp : l₁.Perm l₂) (hn : (l₁.map key).Nodup) :
    List.insertionSort (fun a b => strLeb (key a) (key b) = true) l₁ =
      List.insertionSort (fun a b => strLeb (key a) (key b) = true) l₂ := by
  haveI ht : IsTotal α (fun a b => strLeb (key a) (key b) = true) :=
    ⟨fun a b => strLeb_total (key a) (key b)⟩
  haveI htr : IsTrans α (fun a b => strLeb (key a) (key b) = true) :=
    ⟨fun a b c hab hbc => strLeb_trans (key a) (key b) (key c) hab hbc⟩
  haveI : IsAntisymm α (fun a b => strLeb (key a) (key b) = true ∧ key a ≠ key b) :=
    ⟨fun a b h1 h2 => absurd (strLeb_antisymm (key a) (key b) h1.1 h2.1) h1.2⟩
  apply List.eq_of_perm_of_sorted
    (r := fun a b => strLeb (key a) (key b) = true ∧ key a ≠ key b)
  · exact (List.perm_insertionSort _ l₁).trans
      (hp.trans (List.perm_insertionSort _ l₂).symm)
  · have hs := List.sorted_insertionSort (fun a b => strLeb (key a) (key b) = true) l₁
    have hmn : ((List.insertionSort (fun a b => strLeb (key a) (key b) = true) l₁).map key).Nodup :=
      (((List.perm_insertionSort _ l₁).map key).nodup_iff).mpr hn
    have hpn := (List.pairwise_map).mp hmn
    exact hs.and hpn
  · have hn₂ : (l₂.map key).Nodup := ((hp.map key).nodup_iff).mp hn
    have hs := List.sorted_insertionSort (fun a b => strLeb (key a) (key b) = true) l₂
    have hmn : ((List.insertionSort (fun a b => strLeb (key a) (key b) = true) l₂).map key).Nodup :=
      (((List.perm_insertionSort _ l₂).map key).nodup_iff).mpr hn₂
    have hpn := (List.pairwise_map).mp hmn
    exact hs.and hpn

/-! ### Claim C1 -/

/-- Claim C1, amended: permuting the fields list and the resource-groups
list of an extraction result leaves the primary digest of
`FormHashGenerator.generateHash` unchanged, provided the canonical field
ids and the canonical resource-group ids are duplicate-free (two runs
over an unchanged SourceGraph, and reorderings of the resource table's
nested keys or of the layout arrays, satisfy this whenever no two groups
share an id). -/
theorem C1_order_independence (f1 f2 : List FieldDesc) (g1 g2 : List RGroup)
    (cid1 cid2 : Option String)
    (hfp : f1.Perm f2) (hgp : g1.Perm g2)
    (hfn : ((f1.map canonField).map HashFieldProj.id).Nodup)
    (hgn : ((g1.map canonGroup).map HashGroupProj.id).Nodup) :
    generateHash sha256Engine ⟨some f1, some g1, cid1⟩ =
      generateHash sha256Engine ⟨some f2, some g2, cid2⟩ := by
  have hf : sortedHashFields ⟨some f1, some g1, cid1⟩ =
      sortedHashFields ⟨some f2, some g2, cid2⟩ := by
    unfold sortedHashFields
    exact insertionSort_key_eq HashFieldProj.id _ _ (hfp.map canonField) hfn
  have hg : sortedHashGroups ⟨some f1, some g1, cid1⟩ =
      sortedHashGroups ⟨some f2, some g2, cid2⟩ := by
    unfold sortedHashGroups
    exact insertionSort_key_eq HashGroupProj.id _ _ (hgp.map canonGroup) hgn
  have hj : hashJson ⟨some f1, some g1, cid1⟩ = hashJson ⟨some f2, some g2, cid2⟩ := by
    unfold hashJson
    rw [hf, hg]
  unfold generateHash
  rw [hj]

/-- Witness for C1: two concrete permuted field lists with distinct ids
hash identically. -/
theorem C1_witness :
    ([c1wFieldA, c1wFieldB].Perm [c1wFieldB, c1wFieldA]) ∧
    (([c1wFieldA, c1wFieldB].map canonField).map HashFieldProj.id).Nodup ∧
    generateHash sha256Engine ⟨some [c1wFieldA, c1wFieldB], some [], none⟩ =
      generateHash sha256Engine ⟨some [c1wFieldB, c1wFieldA], some [], none⟩ :=
  ⟨by decide, by decide,
    C1_order_independence [c1wFieldA, c1wFieldB] [c1wFieldB, c1wFieldA] [] [] none none
      (by decide) (by decide) (by decide) (by decide)⟩

set_option maxRecDepth 200000 in
/-- Counterexample for C1 as stated: two extraction results whose fields
lists (both empty) and resource-groups lists are permutations of each
other, yet whose primary digests differ — the two groups share the
canonical id "X", the comparator ties, and the stable sort keeps the
input order, so the serializations differ. -/
theorem C1_counterexample :
    ([c1xGroupA, c1xGroupB].Perm [c1xGroupB, c1xGroupA]) ∧
    exceptOkStr (generateHash sha256Engine ⟨some [], some [c1xGroupA, c1xGroupB], none⟩) ≠
      exceptOkStr (generateHash sha256Engine ⟨some [], some [c1xGroupB, c1xGroupA], none⟩) := by
  constructor
  · decide
  · decide

/-! ### Claim C10 -/

/-- Claim C10: `generateQuickHash` never throws — its result is always a
success value, and when its internal digest computation fails it returns
the empty string — whereas `generateHash` raises
`Error('Failed to generate form hash')` when its digest computation
fails. -/
theorem C10_quick_never_throws :
    (∀ (engine : HashEngine) (fd : HashFormData),
       ∃ s, generateQuickHash engine fd = Except.ok s) ∧
    (∀ (engine : HashEngine) (fd : HashFormData),
       engine (utf8Bytes (quickJson fd)) = Except.error () →
       generateQuickHash engine fd = Except.ok "") ∧
    (∀ (engine : HashEngine) (fd : HashFormData),
       engine (utf8Bytes (hashJson fd)) = Except.error () →
       generateHash engine fd = Except.error "Failed to generate form hash") := by
  refine ⟨fun engine fd => ?_, fun engine fd h => ?_, fun engine fd h => ?_⟩
  · unfold generateQuickHash
    cases h : engine (utf8Bytes (quickJson fd)) with
    | ok d => exact ⟨hexOfBytes d, rfl⟩
    | error e => exact ⟨"", rfl⟩
  · unfold generateQuickHash
    rw [h]
  · unfold generateHash
    rw [h]

/-- Witness for C10: the failing digest engine makes `generateQuickHash`
return the empty string and `generateHash` fail. -/
theorem C10_witness :
    failEngine (utf8Bytes (quickJson hfdEmpty)) = Except.error () ∧
    generateQuickHash failEngine hfdEmpty = Except.ok "" ∧
    generateHash failEngine hfdEmpty = Except.error "Failed to generate form hash" :=
  ⟨rfl, C10_quick_never_throws.2.1 failEngine hfdEmpty rfl,
    C10_quick_never_throws.2.2 failEngine hfdEmpty rfl⟩

/-! ### Claim C4 -/

/-- Claim C4, amended: for the given dictionary and resource table the
extraction yields exactly one descriptor with `id="F1"`, whose
dictionary-phase resource reference `resourceId` is `"F1"` and whose
`possibleValues` are the two elements in order (`id/value/order` as
claimed, plus the `text` fallback the code adds); the layout-sourced
`resourceGroupId` property remains unset, since only `traverseControls`
writes it. -/
theorem C4_scenario :
    extractFields none (some [dC4]) (some rtC4) = [fieldC4] ∧
    fieldC4.id = some "F1" ∧
    fieldC4.resourceId = some "F1" ∧
    fieldC4.resourceGroupId = none ∧
    fieldC4.possibleValues =
      some [⟨some "1", some "Y", some "Y", 0⟩, ⟨some "2", some "N", some "N", 1⟩] := by
  refine ⟨?_, rfl, rfl, rfl, rfl⟩
  decide

/-- Counterexample for C4 as stated: the single extracted descriptor's
`resourceGroupId` is not `"F1"` (it is unset; the resource reference the
dictionary phase sets is the separate `resourceId` property). -/
theorem C4_counterexample :
    (extractFields none (some [dC4]) (some rtC4)).map FieldDesc.resourceGroupId ≠ [some "F1"] := by
  decide

/-! ### Claim C5 -/

/-- Claim C5: a field id present in both the dictionary and the layout
tree yields one descriptor that takes `bindingPath`, `controlType`,
`required`, `resourceGroupId` and `constraints` (and `metadata`) from
the layout control while keeping every dictionary-sourced attribute —
in particular the label, which equals the dictionary `key`. -/
theorem C5_reconciliation (d : DictField) (cd : CtrlData)
    (hid : cd.BindingPathEntryID = fieldIdOf d)
    (htr : jsTruthyS (fieldIdOf d) = true) :
    extractFields (some (layC5 cd)) (some [d]) none =
      [{ dictSeed d none with
           bindingPath := cd.BindingPath, controlType := cd.ControlType,
           required := cd.Required, resourceGroupId := cd.ResourceGroupID,
           constraints := some (buildConstraints cd),
           metadata := some (buildMetadata cd) }] ∧
    (dictSeed d none).label = d.key := by
  constructor
  · simp only [extractFields, dictPhase, List.foldl, fmSet, layC5, traverseForms,
      foldPanels, foldForms, traverseControls, traverseControlsList, updateFieldMap,
      hid, htr, if_true, fmFind, fmValues, List.map]
  · rfl

/-- Witness for C5: the concrete scenario of the spec — dictionary
`label="A"` with no binding path, layout `bindingPath="/x/y"` with no
label — resolves to `bindingPath="/x/y"`, `label="A"`. -/
theorem C5_witness :
    cd5w.BindingPathEntryID = fieldIdOf d5w ∧
    jsTruthyS (fieldIdOf d5w) = true ∧
    (extractFields (some (layC5 cd5w)) (some [d5w]) none =
      [{ dictSeed d5w none with
           bindingPath := cd5w.BindingPath, controlType := cd5w.ControlType,
           required := cd5w.Required, resourceGroupId := cd5w.ResourceGroupID,
           constraints := some (buildConstraints cd5w),
           metadata := some (buildMetadata cd5w) }] ∧
     (dictSeed d5w none).label = d5w.key) ∧
    cd5w.BindingPath = some "/x/y" ∧ d5w.key = some "A" :=
  ⟨by decide, by decide, C5_reconciliation d5w cd5w (by decide) (by decide), rfl, rfl⟩

/-! ### Claim C6 -/

/-- Helper: a value stored by `fmSet` is found by `fmFind`. -/
theorem fmFind_fmSet (fm : FieldMap) (k : Option String) (v : FieldDesc) :
    fmFind (fmSet fm k v) k = some v := by
  induction fm with
  | nil => simp [fmSet, fmFind]
  | cons kv rest ih =>
    by_cases h : kv.1 = k
    · simp [fmSet, fmFind, h]
    · simp [fmSet, fmFind, h, ih]

/-- Claim C6: every control carrying a binding-path id receives
constraints from `buildConstraints`, whose `maxOccurs` is `-1` exactly
when at least one of the five signals holds — grid marker in the
control-type name, explicit multi-select, array notation in the binding
path, a repeating/collection flag, or a declared cardinality bound
greater than one — and `1` otherwise; in particular `DataGrid` with no
other signal gives `-1` and `TextBox` with no signal gives `1`. -/
theorem C6_maxOccurs :
    (∀ (cd : CtrlData) (fm : FieldMap) (path : String),
       jsTruthyS cd.BindingPathEntryID = true →
       ∃ f, fmFind (updateFieldMap fm cd path) cd.BindingPathEntryID = some f ∧
         f.constraints = some (buildConstraints cd)) ∧
    (∀ cd : CtrlData,
       ((buildConstraints cd).maxOccurs = -1 ↔
         (gridSignal cd || multiSelectSignal cd || arrayNotationSignal cd ||
           repeatFlagSignal cd || cardinalitySignal cd) = true) ∧
       ((gridSignal cd || multiSelectSignal cd || arrayNotationSignal cd ||
           repeatFlagSignal cd || cardinalitySignal cd) = false →
         (buildConstraints cd).maxOccurs = 1)) ∧
    (buildConstraints dataGridCd).maxOccurs = -1 ∧
    (buildConstraints textBoxCd).maxOccurs = 1 := by
  refine ⟨fun cd fm path _ => ?_, fun cd => ⟨?_, ?_⟩, by decide, by decide⟩
  · unfold updateFieldMap
    cases hf : fmFind fm cd.BindingPathEntryID with
    | some f =>
      simp only [hf]
      exact ⟨_, fmFind_fmSet fm cd.BindingPathEntryID _, rfl⟩
    | none =>
      simp only [hf]
      exact ⟨_, fmFind_fmSet fm cd.BindingPathEntryID _, rfl⟩
  · unfold buildConstraints isCollectionField
    cases h : (gridSignal cd || multiSelectSignal cd || arrayNotationSignal cd ||
        repeatFlagSignal cd || cardinalitySignal cd) <;> simp [h]
  · intro h
    unfold buildConstraints isCollectionField
    simp [h]

/-- Witness for C6: the DataGrid control's descriptor in the field map
carries `maxOccurs = -1`. -/
theorem C6_witness :
    jsTruthyS dataGridCd.BindingPathEntryID = true ∧
    (∃ f, fmFind (updateFieldMap [] dataGridCd "p") dataGridCd.BindingPathEntryID = some f ∧
      f.constraints = some (buildConstraints dataGridCd)) :=
  ⟨by decide, C6_maxOccurs.1 dataGridCd [] "p" (by decide)⟩

/-! ### Claim C9 -/

/-- Claim C9: a selectable dictionary field whose id misses the resource
table's top level but appears as a key inside a nested container still
resolves — the descriptor's resource reference is set to the id and its
`possibleValues` come from the nested group's `Elements`; the direct
top-level match is checked first (hypothesis `hdirect` states it fails). -/
theorem C9_enumeration_fallback (d : DictField) (rt : ResourceTable) (rid : String)
    (nst : RTNested) (es : List RElem)
    (hsel : d.type = some "SingleSelect" ∨ d.type = some "MultiSelect")
    (hid : fieldIdOf d = some rid) (hrid : rid ≠ "")
    (hdirect : assocFind rt rid = none)
    (hnst : rtScanNested rt rid = some nst)
    (hes : nst.Elements = some es) :
    extractFields none (some [d]) (some rt) = [dictSeed d (some rt)] ∧
    (dictSeed d (some rt)).resourceId = some rid ∧
    (dictSeed d (some rt)).possibleValues = some (es.map pvOfElemField) := by
  have henum : dictEnum d (some rt) = (some rid, es.map pvOfElemField) := by
    unfold dictEnum
    have hty : (d.type == some "SingleSelect" || d.type == some "MultiSelect") = true := by
      rcases hsel with h | h <;> simp [h]
    rw [hty, if_pos rfl, hid]
    simp [hrid, hdirect, hnst, hes]
  refine ⟨?_, ?_, ?_⟩
  · simp [extractFields, dictPhase, fmSet, fmValues]
  · simp [dictSeed, henum]
  · simp [dictSeed, henum]

/-- Witness for C9: the id "G7" appears only inside nested container "1"
and still resolves with its elements. -/
theorem C9_witness :
    (d9w.type = some "SingleSelect" ∨ d9w.type = some "MultiSelect") ∧
    fieldIdOf d9w = some "G7" ∧
    assocFind rt9w "G7" = none ∧
    rtScanNested rt9w "G7" =
      some ⟨some [⟨some "5", none, some "Yes", some "Yes!", some 2, none, none⟩]⟩ ∧
    (extractFields none (some [d9w]) (some rt9w) = [dictSeed d9w (some rt9w)] ∧
     (dictSeed d9w (some rt9w)).resourceId = some "G7" ∧
     (dictSeed d9w (some rt9w)).possibleValues =
       some ([⟨some "5", none, some "Yes", some "Yes!", some 2, none, none⟩].map pvOfElemField)) :=
  ⟨by decide, by decide, by decide, by decide,
    C9_enumeration_fallback d9w rt9w "G7"
      ⟨some [⟨some "5", none, some "Yes", some "Yes!", some 2, none, none⟩]⟩
      [⟨some "5", none, some "Yes", some "Yes!", some 2, none, none⟩]
      (by right; rfl) (by decide) (by decide) (by decide) (by decide) (by decide)⟩

/-! ### Claim C7 -/

/-- Claim C7, amended: at every nesting level an absent raw expression
group is mapped to null, and an absent comparison list or absent
child-group list stays absent (undefined) in the normalized node — not
an empty list — while present lists are mapped elementwise and null
entries of a child list stay null. -/
theorem C7_normalize_absent :
    normalizeExpression none = none ∧
    (∀ (b : Option Int) (cmps : Option (List RawCmp)) (ch : RawChildren),
       (normExprCore (.mk b cmps ch)).booleanOperator = b ∧
       (normExprCore (.mk b cmps ch)).expressions = cmps.map (fun l => l.map normalizeCmp) ∧
       (normExprCore (.mk b cmps ch)).childGroups = normChildrenCore ch) ∧
    (∀ (b : Option Int) (ch : RawChildren),
       (normExprCore (.mk b none ch)).expressions = none) ∧
    (∀ (b : Option Int) (cmps : Option (List RawCmp)),
       (normExprCore (.mk b cmps .absent)).childGroups = .absent) ∧
    (∀ rest : RawExprList, normListCore (.consNull rest) = .consNull (normListCore rest)) :=
  ⟨rfl, fun _ _ _ => ⟨rfl, rfl, rfl⟩, fun _ _ => rfl, fun _ _ => rfl, fun _ => rfl⟩

/-- Counterexample for C7 as stated: a raw group with absent
`Expressions` and absent `ChildExpressionGroups` normalizes to a node
whose `expressions` is `undefined` — not the empty list the claim
requires — and whose `childGroups` is likewise absent. -/
theorem C7_counterexample :
    (normExprCore (.mk (some 3) none .absent)).expressions = none ∧
    (normExprCore (.mk (some 3) none .absent)).expressions ≠ some [] ∧
    (normExprCore (.mk (some 3) none .absent)).childGroups.isAbsent = true := by
  refine ⟨rfl, ?_, rfl⟩
  intro h
  simp [normExprCore, NormExpr.expressions] at h

/-! ### Claim C8 -/

/-- Set-semantics insertion preserves duplicate-freedom. -/
theorem setAdd_nodup (s : List Int) (n : Int) (h : s.Nodup) : (setAdd s n).Nodup := by
  unfold setAdd
  split
  · exact h
  · rename_i hc
    have hn : n ∉ s := by
      intro hmem
      exact hc (List.elem_eq_true_of_mem hmem)
    simp [List.nodup_append, h, hn]

/-- The three-set invariant survives one expression-operator insertion. -/
theorem addExprOp_inv (s : OpSets) (n : Int) (h : InvOps s) : InvOps (addExprOp s n) :=
  ⟨setAdd_nodup _ _ h.1, h.2.1, h.2.2⟩

/-- The three-set invariant survives one boolean-operator insertion. -/
theorem addBoolOp_inv (s : OpSets) (n : Int) (h : InvOps s) : InvOps (addBoolOp s n) :=
  ⟨h.1, setAdd_nodup _ _ h.2.1, h.2.2⟩

/-- The three-set invariant survives one calculation-operator insertion. -/
theorem addCalcOp_inv (s : OpSets) (n : Int) (h : InvOps s) : InvOps (addCalcOp s n) :=
  ⟨h.1, h.2.1, setAdd_nodup _ _ h.2.2⟩

/-- The three-set invariant survives the expression-operator step. -/
theorem exprOpStep_inv (eo : Option Int) (s : OpSets) (h : InvOps s) :
    InvOps (exprOpStep eo s) := by
  cases eo with
  | some n => exact addExprOp_inv s n h
  | none => exact h

/-- The three-set invariant survives the calculation-operator step. -/
theorem calcOpStep_inv (tg : Option TermGroup) (s : OpSets) (h : InvOps s) :
    InvOps (calcOpStep tg s) := by
  cases tg with
  | some t =>
    obtain ⟨terms, co⟩ := t
    cases co with
    | some n => exact addCalcOp_inv s n h
    | none => exact h
  | none => exact h

/-- The three-set invariant survives the boolean-operator step. -/
theorem boolOpStep_inv (bop : Option Int) (s : OpSets) (h : InvOps s) :
    InvOps (boolOpStep bop s) := by
  cases bop with
  | some n => exact addBoolOp_inv s n h
  | none => exact h

/-- The three-set invariant survives one comparison visit. -/
theorem analyzeCmpOps_inv (s : OpSets) (exp : RawCmp) (h : InvOps s) :
    InvOps (analyzeCmpOps s exp) :=
  calcOpStep_inv _ _ (calcOpStep_inv _ _ (exprOpStep_inv _ _ h))

/-- The three-set invariant survives a comparison-list fold. -/
theorem foldCmps_inv : ∀ (l : List RawCmp) (s : OpSets), InvOps s →
    InvOps (l.foldl analyzeCmpOps s)
  | [], _, h => h
  | exp :: rest, s, h => foldCmps_inv rest _ (analyzeCmpOps_inv s exp h)

/-- The three-set invariant survives the comparison-list step. -/
theorem cmpsStep_inv (cmps : Option (List RawCmp)) (s : OpSets) (h : InvOps s) :
    InvOps (cmpsStep cmps s) := by
  cases cmps with
  | some l => exact foldCmps_inv l s h
  | none => exact h

mutual
/-- The three-set invariant survives one expression-group visit. -/
theorem analyzeExprOps_inv : ∀ (e : RawExpr) (s : OpSets), InvOps s →
    InvOps (analyzeExprOps e s)
  | .mk bop cmps children, s, h =>
    analyzeChOps_inv children _ (cmpsStep_inv cmps _ (boolOpStep_inv bop s h))
/-- The three-set invariant survives the child-group dispatch. -/
theorem analyzeChOps_inv : ∀ (ch : RawChildren) (s : OpSets), InvOps s →
    InvOps (analyzeChOps ch s)
  | .absent, _, h => h
  | .present l, s, h => analyzeLOps_inv l s h
/-- The three-set invariant survives a child-array walk. -/
theorem analyzeLOps_inv : ∀ (l : RawExprList) (s : OpSets), InvOps s →
    InvOps (analyzeLOps l s)
  | .nil, _, h => h
  | .consNull rest, s, h => analyzeLOps_inv rest s h
  | .consSome e rest, s, h => analyzeLOps_inv rest _ (analyzeExprOps_inv e s h)
end

/-- Membership in a flattened list of lists. -/
theorem flatAll_mem {α : Type} (ls : List (List α)) (a : α) :
    a ∈ flatAll ls ↔ ∃ l ∈ ls, a ∈ l := by
  induction ls with
  | nil => simp [flatAll]
  | cons l rest ih => simp [flatAll, ih]

/-- The action fold succeeds on all-present actions and keeps the
invariant. -/
theorem foldActions_ok : ∀ (acts : List (Option FAction)) (s : OpSets),
    (∀ a ∈ acts, a.isSome = true) → InvOps s →
    ∃ s', foldActions acts s = some s' ∧ InvOps s'
  | [], s, _, h => ⟨s, rfl, h⟩
  | none :: _, _, hall, _ => absurd (hall none (by simp)) (by simp)
  | some a :: rest, s, hall, h => by
    have hnext : InvOps (match a.ExpressionGroup with
                         | some g => analyzeExprOps g s
                         | none => s) := by
      cases a.ExpressionGroup with
      | some g => exact analyzeExprOps_inv g s h
      | none => exact h
    have := foldActions_ok rest _ (fun x hx => hall x (by simp [hx])) hnext
    simpa [foldActions] using this

/-- The action fold is the identity on actions without expression
groups. -/
theorem foldActions_nogroups : ∀ (acts : List (Option FAction)) (s : OpSets),
    (∀ a ∈ acts, ∀ x, a = some x → x.ExpressionGroup = none) →
    (∀ a ∈ acts, a.isSome = true) →
    foldActions acts s = some s
  | [], _, _, _ => rfl
  | none :: _, _, _, hall => absurd (hall none (by simp)) (by simp)
  | some a :: rest, s, hng, hall => by
    have hg : a.ExpressionGroup = none := hng (some a) (by simp) a rfl
    have := foldActions_nogroups rest s
      (fun x hx => hng x (by simp [hx])) (fun x hx => hall x (by simp [hx]))
    simpa [foldActions, hg] using this

/-- Pointwise consequence of `faAllPresent`. -/
theorem faAllPresent_flat (fa : FormActions) (h : faAllPresent fa = true) :
    ∀ a ∈ flatAll (fa.map Prod.snd), a.isSome = true := by
  intro a ha
  rw [flatAll_mem] at ha
  obtain ⟨l, hl, hal⟩ := ha
  rw [List.mem_map] at hl
  obtain ⟨kv, hkv, rfl⟩ := hl
  unfold faAllPresent at h
  rw [List.all_eq_true] at h
  have hkv2 := h kv hkv
  rw [List.all_eq_true] at hkv2
  exact hkv2 a hal

/-- Pointwise consequence of `faNoGroups`. -/
theorem faNoGroups_flat (fa : FormActions) (h : faNoGroups fa = true) :
    ∀ a ∈ flatAll (fa.map Prod.snd), ∀ x, a = some x → x.ExpressionGroup = none := by
  intro a ha x hx
  rw [flatAll_mem] at ha
  obtain ⟨l, hl, hal⟩ := ha
  rw [List.mem_map] at hl
  obtain ⟨kv, hkv, rfl⟩ := hl
  unfold faNoGroups at h
  rw [List.all_eq_true] at h
  have hkv2 := h kv hkv
  rw [List.all_eq_true] at hkv2
  have := hkv2 a hal
  subst hx
  simpa [Option.isNone_iff_eq_none] using this

/-- Sorting with `sortInts` yields an ascending list. -/
theorem sortInts_sorted (l : List Int) :
    List.Sorted (fun a b : Int => a ≤ b) (sortInts l) := by
  haveI : IsTotal Int (fun a b : Int => a ≤ b) := ⟨Int.le_total⟩
  haveI : IsTrans Int (fun a b : Int => a ≤ b) := ⟨fun _ _ _ => Int.le_trans⟩
  exact List.sorted_insertionSort _ l

/-- Sorting with `sortInts` preserves duplicate-freedom. -/
theorem sortInts_nodup (l : List Int) (h : l.Nodup) : (sortInts l).Nodup :=
  ((List.perm_insertionSort _ l).nodup_iff).mpr h

/-- A duplicate-free list sorted ascending is strictly ascending. -/
theorem sortInts_pairwise_lt (l : List Int) (h : l.Nodup) :
    List.Pairwise (fun a b : Int => a < b) (sortInts l) :=
  ((sortInts_sorted l).and (sortInts_nodup l h)).imp
    (fun hab => lt_of_le_of_ne hab.1 hab.2)

/-- Claim C8, amended: `analyzeOperators` returns null exactly on an
absent input; on every present map *whose action entries are all
non-null* it returns three strictly-ascending (hence duplicate-free,
ascending-sorted) operator lists, and when no action carries an
expression group all three lists are empty — not null. The original
claim's quantification over every present map fails: a present map
containing a null action entry makes the analyzer throw a TypeError at
`action.ExpressionGroup` instead of returning lists (see the
counterexample). -/
theorem C8_analyzeOperators :
    analyzeOperators none = Except.ok none ∧
    (∀ fa : FormActions, faAllPresent fa = true →
      (∃ p, analyzeOperators (some fa) = Except.ok (some p) ∧
        List.Pairwise (fun a b : Int => a < b) p.expression ∧
        List.Pairwise (fun a b : Int => a < b) p.boolean ∧
        List.Pairwise (fun a b : Int => a < b) p.calculation) ∧
      (faNoGroups fa = true →
        analyzeOperators (some fa) = Except.ok (some ⟨[], [], []⟩))) := by
  refine ⟨rfl, fun fa hp => ⟨?_, fun hng => ?_⟩⟩
  · obtain ⟨s', hfold, hinv⟩ :=
      foldActions_ok (flatAll (fa.map Prod.snd)) ⟨[], [], []⟩
        (faAllPresent_flat fa hp) ⟨List.nodup_nil, List.nodup_nil, List.nodup_nil⟩
    refine ⟨⟨sortInts s'.expression, sortInts s'.boolean, sortInts s'.calculation⟩, ?_, ?_, ?_, ?_⟩
    · simp only [analyzeOperators]
      rw [hfold]
    · exact sortInts_pairwise_lt _ hinv.1
    · exact sortInts_pairwise_lt _ hinv.2.1
    · exact sortInts_pairwise_lt _ hinv.2.2
  · have hfold := foldActions_nogroups (flatAll (fa.map Prod.snd)) ⟨[], [], []⟩
      (faNoGroups_flat fa hng) (faAllPresent_flat fa hp)
    simp only [analyzeOperators]
    rw [hfold]
    rfl

/-- Witness for C8: a present map with one group-less action yields
three empty sorted lists. -/
theorem C8_witness :
    faAllPresent fa8 = true ∧ faNoGroups fa8 = true ∧
    analyzeOperators (some fa8) = Except.ok (some ⟨[], [], []⟩) :=
  ⟨by decide, by decide, (C8_analyzeOperators.2 fa8 (by decide)).2 (by decide)⟩

/-- Counterexample for C8 as stated: a present formActions map carrying
one null action entry — the analyzer throws (reading `ExpressionGroup`
of null) instead of returning three operator-code lists, so the claim's
quantification over every present map is false. -/
theorem C8_counterexample :
    analyzeOperators (some fa8x) = Except.error () ∧
    isOkSomeProfile (analyzeOperators (some fa8x)) = false :=
  ⟨rfl, rfl⟩

/-! ### Claim C2 -/

/-- Claim C2, amended: there is no per-stage failure isolation — when
the operator-analysis stage of `extractFormMapping` throws, the single
surrounding try/catch aborts the whole extraction and the result is an
error carrying no fields or resource groups; already-computed stage
outputs are discarded, not delivered with a null slot. -/
theorem C2_failure_not_isolated (inp : ExtractInputs) (fc : FormComposer)
    (hfc : inp.formComposer = some fc)
    (hops : analyzeOperators inp.vmFormActions = Except.error ()) :
    extractFormMapping inp = Except.error () := by
  simp only [extractFormMapping, hfc]
  rw [hops]

/-- Witness for C2's amended statement at the concrete counterexample
input. -/
theorem C2_witness :
    c2Inp.formComposer = some
      { formHierarchyCollectionId := some "FHC", reportingStandardId := none,
        agencyLayouts := none, formFieldDictionary := some [c2Dict], agencyResources := none } ∧
    analyzeOperators c2Inp.vmFormActions = Except.error () ∧
    extractFormMapping c2Inp = Except.error () :=
  ⟨rfl, rfl, C2_failure_not_isolated c2Inp _ rfl rfl⟩

/-- Counterexample for C2 as stated: an input whose dictionary produces
a non-empty field list while a null form-action entry makes the
operator-analysis stage throw; the extraction result is a hard error —
the computed fields are not delivered with a null operator slot — even
though all the root containers that are present are well-formed. -/
theorem C2_counterexample :
    extractFields none (some [c2Dict]) none ≠ [] ∧
    analyzeOperators (some [("path1", [(none : Option FAction)])]) = Except.error () ∧
    extractFormMapping c2Inp = Except.error () := by
  refine ⟨?_, rfl, rfl⟩
  decide

/-! ### Claim C3 -/

/-- With nesting budget `fuel` at depth `depth`, `12 ≤ fuel + depth`
guarantees the guarded control traversal returns: the `depth > 10`
ceiling cuts every branch before the budget can run out, on every heap —
including cyclic ones. -/
theorem travControlsG_total : ∀ (fuel : Nat) (g : Graph) (ids : List Nat) (path : String)
    (depth : Nat) (fm : FieldMap), 12 ≤ fuel + depth → depth ≤ 11 →
    (travControlsG g fuel ids path depth fm).isSome = true := by
  intro fuel
  induction fuel with
  | zero =>
    intro g ids path depth fm h1 h2
    exfalso
    omega
  | succ f ihf =>
    intro g ids path depth fm h1 h2
    induction ids generalizing fm with
    | nil => simp [travControlsG]
    | cons i rest ihl =>
      rw [travControlsG]
      split
      · exact ihl fm
      · rename_i nd hg
        split
        · exact ihl _
        · rename_i cids hc
          split
          · exact ihl _
          · rename_i hd
            have hchild := ihf g cids
              (path ++ "/" ++ jsStrOr nd.data.Name "group") (depth + 1)
              (stepNode fm nd path) (by omega) (by omega)
            obtain ⟨fm2, hfm2⟩ := Option.isSome_iff_exists.mp hchild
            show (match travControlsG g f cids (path ++ "/" ++ jsStrOr nd.data.Name "group")
                (depth + 1) (stepNode fm nd path) with
              | none => none
              | some fm2 => travControlsG g (f + 1) rest path depth fm2).isSome = true
            rw [hfm2]
            exact ihl _

/-- On the self-referencing heap, the unguarded repeater walk exhausts
every nesting budget: each visit of node 0 recurses into node 0 again. -/
theorem findRepeatersG_cyc : ∀ (fuel : Nat) (path : String) (acc : List Repeater),
    findRepeatersG cycGraph fuel 0 path acc = none := by
  intro fuel
  induction fuel with
  | zero =>
    intro path acc
    rw [findRepeatersG]
  | succ f ih =>
    intro path acc
    rw [findRepeatersG]
    have hg : gnode cycGraph 0 = some ⟨blankCtrl, some [0]⟩ := rfl
    rw [hg]
    simp only [blankCtrl, Bool.false_or]
    rw [findRepeatersChildren]
    rw [ih]

/-- Claim C3, amended: the guarded field-control traversal terminates on
every layout heap — including an artificially self-referencing control
tree deeper than the ceiling — returning a (bounded) descriptor map:
nesting budget 12 is never exhausted because the `depth > 10` ceiling
cuts each branch first. The independent repeater-discovery walk does not
share this property (see the counterexample). -/
theorem C3_depth_guard_terminates (g : Graph) (controls : Option (List Nat)) (path : String)
    (fm : FieldMap) : (travControlsEntry g 12 controls path 0 fm).isSome = true := by
  cases controls with
  | none => rfl
  | some ids =>
    show (travControlsG g 12 ids path 0 fm).isSome = true
    exact travControlsG_total 12 g ids path 0 fm (by omega) (by omega)

/-- Counterexample for C3 as stated: on the same self-referencing
control tree the field-control traversal terminates, but the
repeater-discovery walk (`findRepeaters`, which has no depth guard)
diverges — no nesting budget suffices for it to return. -/
theorem C3_counterexample :
    findRepeatersDiverges cycGraph 0 ∧
    (travControlsEntry cycGraph 12 (some [0]) "" 0 []).isSome = true :=
  ⟨fun fuel => findRepeatersG_cyc fuel "" [],
    travControlsG_total 12 cycGraph [0] "" 0 [] (by omega) (by omega)⟩
